import Mathlib

/-!
Verification development for the streaming generation client protocol of the
halteres-mobile repository. The definitions below are a shallow embedding of

  * src/lib/api/sseClient.ts (frame decoder, SSE message parser, and the
    XMLHttpRequest-based POST streaming client createSSEClientWithPost), and
  * src/hooks/useWorkout.ts (the generation orchestrator useProgramGeneration /
    generateProgram, its retry loop, weekday normalization, and cancel), and
  * src/lib/constants/programConfig.ts (dayNameToNumber).

Strings are modelled as List Char. JavaScript builtins that are external to
the repository (JSON.parse, the XMLHttpRequest event source) are modelled
abstractly: JSON.parse as a parameter of type List Char → Option JsVal, and
the XHR lifetime as a trace of events (headers received, response text grown,
done, network error, abort) whose handlers are translated line by line from
the source.
-/

/-- Strings of the modelled program are lists of characters. -/
abbrev Str := List Char

/-- Shorthand to write a modelled string from a Lean string literal. -/
def str (s : String) : Str := s.toList

/-- JavaScript whitespace characters relevant to String.prototype.trim for
this protocol (space, tab, carriage return, line feed). -/
def isWS (c : Char) : Bool :=
  c = ' ' || c = '\t' || c = '\r' || c = '\n'

/-- Model of JavaScript String.prototype.trim: drop leading and trailing
whitespace. -/
def trimChars (s : Str) : Str :=
  ((s.dropWhile isWS).reverse.dropWhile isWS).reverse

/-- Model of String.prototype.startsWith for our list strings. -/
def startsWithL : Str → Str → Bool
  | [], _ => true
  | _ :: _, [] => false
  | a :: p, b :: s => a = b && startsWithL p s

/-- Model of String.prototype.includes: does the second string contain the
first as a contiguous substring? -/
def hasSub (n : Str) : Str → Bool
  | [] => startsWithL n []
  | s@(_ :: tail) => startsWithL n s || hasSub n tail

/-- Model of String.prototype.split("\n"): split on every single newline. -/
def splitNL : Str → List Str
  | [] => [[]]
  | '\n' :: r => [] :: splitNL r
  | c :: r =>
    match splitNL r with
    | [] => [[c]]
    | s :: ss => (c :: s) :: ss

/-- Decimal digit test, as used by the integer parser. -/
def isDigitC (c : Char) : Bool := '0' ≤ c && c ≤ '9'

/-- Numeric value of a string of decimal digits. -/
def digitsToNat (ds : Str) : Nat :=
  ds.foldl (fun a c => a * 10 + (c.toNat - 48)) 0

/-- Longest leading run of decimal digits, as a number; none when the string
does not start with a digit. -/
def parseNatPre (s : Str) : Option Nat :=
  let ds := s.takeWhile isDigitC
  if ds = [] then none else some (digitsToNat ds)

/-- Model of JavaScript parseInt(s, 10) on pre-trimmed input: an optional
sign followed by the longest run of decimal digits; NaN (none) when no digit
follows. Trailing non-digit characters are ignored, as in JavaScript. -/
def parseIntJS : Str → Option Int
  | '-' :: r => (parseNatPre r).map (fun n => -(n : Int))
  | '+' :: r => (parseNatPre r).map (fun n => (n : Int))
  | s => (parseNatPre s).map (fun n => (n : Int))

/-- StreamFrame: one decoded SSE protocol unit, from sseClient.ts (type
SSEEvent there): optional event name, required data, optional id, optional
retry interval. -/
structure SSEEvent where
  event : Option Str
  data : Str
  id : Option Str
  retry : Option Int
  deriving DecidableEq

/-- Line-by-line accumulation loop of parseSSEMessage (sseClient.ts lines
115-130): recognize the event:/data:/id:/retry: line kinds, accumulate
data lines joined by a newline, silently drop a retry value that does not
parse as an integer, and ignore unrecognized lines. -/
def parseAux : List Str → Option Str × Str × Option Str × Option Int →
    Option Str × Str × Option Str × Option Int
  | [], acc => acc
  | l :: ls, (ev, dat, idf, rt) =>
    if startsWithL (str "event:") l then
      parseAux ls (some (trimChars (l.drop 6)), dat, idf, rt)
    else if startsWithL (str "data:") l then
      let dLine := trimChars (l.drop 5)
      parseAux ls (ev, (if dat = [] then dLine else dat ++ '\n' :: dLine), idf, rt)
    else if startsWithL (str "id:") l then
      parseAux ls (ev, dat, some (trimChars (l.drop 3)), rt)
    else if startsWithL (str "retry:") l then
      match parseIntJS (trimChars (l.drop 6)) with
      | some n => parseAux ls (ev, dat, idf, some n)
      | none => parseAux ls (ev, dat, idf, rt)
    else parseAux ls (ev, dat, idf, rt)

/-- parseSSEMessage (sseClient.ts lines 109-134): split the raw frame into
lines, accumulate the recognized fields, and return a frame only when some
data was accumulated (a frame with no data is discarded). -/
def parseSSEMessage (msg : Str) : Option SSEEvent :=
  match parseAux (splitNL msg) (none, [], none, none) with
  | (ev, dat, idf, rt) => if dat = [] then none else some ⟨ev, dat, idf, rt⟩

/-- Leftmost, non-overlapping split on the double-newline frame delimiter,
with an accumulator for the current segment (stored reversed). This is the
behavior of JavaScript buffer.split("\n\n"). -/
def splitFramesAux : Str → Str → List Str
  | acc, [] => [acc.reverse]
  | acc, '\n' :: '\n' :: rest => acc.reverse :: splitFramesAux [] rest
  | acc, c :: rest => splitFramesAux (c :: acc) rest

/-- Model of buffer.split("\n\n") (sseClient.ts lines 73 and 200). -/
def splitFrames (s : Str) : List Str := splitFramesAux [] s

/-- Does a string start with a newline? -/
def startsNL : Str → Bool
  | [] => false
  | c :: _ => c = '\n'

/-- Does a string end with a newline? -/
def endsNL : Str → Bool
  | [] => false
  | [c] => c = '\n'
  | _ :: b :: r => endsNL (b :: r)

/-- Does a string contain the double-newline frame delimiter? -/
def hasNN : Str → Bool
  | [] => false
  | [_] => false
  | a :: b :: r => (a = '\n' && b = '\n') || hasNN (b :: r)

/-- Join segments back with the double-newline delimiter (the inverse of
splitFrames, used to state its characterization). -/
def intercalateNN : List Str → Str
  | [] => []
  | [s] => s
  | s :: rest => s ++ '\n' :: '\n' :: intercalateNN rest

/-- Per-segment delivery of the stream client (sseClient.ts lines 205-211):
a segment is delivered iff it trims nonempty and parses to a frame. -/
def deliverSeg (m : Str) : List SSEEvent :=
  if trimChars m = [] then []
  else
    match parseSSEMessage m with
    | some ev => [ev]
    | none => []

/-- Deliver every segment of a list, in order. -/
def emitAll : List Str → List SSEEvent
  | [] => []
  | s :: rest => deliverSeg s ++ emitAll rest

/-- One feed step of the stream decoder (sseClient.ts lines 196-213): when
the newly observed data is nonempty, append it to the buffer, split on the
frame delimiter, deliver all fully delimited segments, and keep the trailing
partial segment as the new buffer. -/
def feedChunk (buffer chunk : Str) : List SSEEvent × Str :=
  if chunk = [] then ([], buffer)
  else
    let segs := splitFrames (buffer ++ chunk)
    (emitAll segs.dropLast, segs.getLastD [])

/-- Feed a sequence of chunks through the decoder, collecting every
delivered frame in order. -/
def feedMany (buffer : Str) : List Str → List SSEEvent × Str
  | [] => ([], buffer)
  | c :: cs =>
    let d := feedChunk buffer c
    let rest := feedMany d.2 cs
    (d.1 ++ rest.1, rest.2)

/-- Concatenation of a list of chunks. -/
def joinAll : List Str → Str
  | [] => []
  | c :: cs => c ++ joinAll cs

mutual
/-- JSON values, as produced by the external JSON.parse builtin. Mutual with
array elements and object fields so that decidable equality is derivable. -/
inductive JsVal : Type where
  | jnull
  | jbool (b : Bool)
  | jnum (n : Int)
  | jstr (s : Str)
  | jarr (xs : JsList)
  | jobj (fs : JsFields)
  deriving DecidableEq
/-- JSON array elements. -/
inductive JsList : Type where
  | jnil
  | jcons (hd : JsVal) (tl : JsList)
  deriving DecidableEq
/-- JSON object fields. -/
inductive JsFields : Type where
  | fnil
  | fcons (k : Str) (v : JsVal) (tl : JsFields)
  deriving DecidableEq
end

/-- Field lookup in a JSON object, later duplicate keys winning as in
JSON.parse. -/
def lookupField : JsFields → Str → Option JsVal
  | JsFields.fnil, _ => none
  | JsFields.fcons k v r, key =>
    match lookupField r key with
    | some v' => some v'
    | none => if k = key then some v else none

/-- Property access data.field in JavaScript: a field of an object, undefined
(none) otherwise. -/
def getFieldJ : JsVal → Str → Option JsVal
  | JsVal.jobj fs, key => lookupField fs key
  | _, _ => none

/-- JavaScript truthiness of a JSON value: null, false, 0 and the empty
string are falsy; arrays and objects are truthy. -/
def truthy : JsVal → Bool
  | JsVal.jnull => false
  | JsVal.jbool b => b
  | JsVal.jnum n => n ≠ 0
  | JsVal.jstr s => s ≠ []
  | JsVal.jarr _ => true
  | JsVal.jobj _ => true

/-- ASCII lower-casing of a character, identity on everything else, as
String.prototype.toLowerCase acts on the ASCII day names this code handles. -/
def asciiLower (c : Char) : Char :=
  if c = 'A' then 'a' else
  if c = 'B' then 'b' else
  if c = 'C' then 'c' else
  if c = 'D' then 'd' else
  if c = 'E' then 'e' else
  if c = 'F' then 'f' else
  if c = 'G' then 'g' else
  if c = 'H' then 'h' else
  if c = 'I' then 'i' else
  if c = 'J' then 'j' else
  if c = 'K' then 'k' else
  if c = 'L' then 'l' else
  if c = 'M' then 'm' else
  if c = 'N' then 'n' else
  if c = 'O' then 'o' else
  if c = 'P' then 'p' else
  if c = 'Q' then 'q' else
  if c = 'R' then 'r' else
  if c = 'S' then 's' else
  if c = 'T' then 't' else
  if c = 'U' then 'u' else
  if c = 'V' then 'v' else
  if c = 'W' then 'w' else
  if c = 'X' then 'x' else
  if c = 'Y' then 'y' else
  if c = 'Z' then 'z' else
  c

/-- ASCII upper-casing of a character, identity on everything else, as
String.prototype.toUpperCase acts on the ASCII day names this code handles. -/
def asciiUpper (c : Char) : Char :=
  if c = 'a' then 'A' else
  if c = 'b' then 'B' else
  if c = 'c' then 'C' else
  if c = 'd' then 'D' else
  if c = 'e' then 'E' else
  if c = 'f' then 'F' else
  if c = 'g' then 'G' else
  if c = 'h' then 'H' else
  if c = 'i' then 'I' else
  if c = 'j' then 'J' else
  if c = 'k' then 'K' else
  if c = 'l' then 'L' else
  if c = 'm' then 'M' else
  if c = 'n' then 'N' else
  if c = 'o' then 'O' else
  if c = 'p' then 'P' else
  if c = 'q' then 'Q' else
  if c = 'r' then 'R' else
  if c = 's' then 'S' else
  if c = 't' then 'T' else
  if c = 'u' then 'U' else
  if c = 'v' then 'V' else
  if c = 'w' then 'W' else
  if c = 'x' then 'X' else
  if c = 'y' then 'Y' else
  if c = 'z' then 'Z' else
  c

/-- dayNameToNumber (programConfig.ts lines 149-157): the canonical weekday
names mapped to 0=Sunday .. 6=Saturday. -/
def dayNameToNumber (d : Str) : Option Nat :=
  if d = str "Sunday" then some 0 else
  if d = str "Monday" then some 1 else
  if d = str "Tuesday" then some 2 else
  if d = str "Wednesday" then some 3 else
  if d = str "Thursday" then some 4 else
  if d = str "Friday" then some 5 else
  if d = str "Saturday" then some 6 else
  none

/-- day.charAt(0).toUpperCase() + day.slice(1).toLowerCase()
(useWorkout.ts lines 605-606). -/
def capFirst : Str → Str
  | [] => []
  | c :: r => asciiUpper c :: r.map asciiLower

/-- The per-day normalization of useWorkout.ts lines 595-612 on a string
day name: empty strings map to null, then an exact dayNameToNumber match is
tried, then the capitalized form, else null. (The typeof day === "number"
branch is unreachable for the declared string[] input type.) -/
def mapDayName (day : Str) : Option Nat :=
  if day = [] then none
  else
    match dayNameToNumber day with
    | some n => some n
    | none => dayNameToNumber (capFirst day)

/-- daysOfWeekNumbers construction with the Mon/Wed/Fri fallback
(useWorkout.ts lines 594-618): normalize each name, drop the failures, and
use [1, 3, 5] when no valid day remains. -/
def buildDaysOfWeek (ds : List Str) : List Nat :=
  let ns := ds.filterMap mapDayName
  if ns = [] then [1, 3, 5] else ns

/-- MAX_RETRIES (useWorkout.ts line 467). -/
def MAX_RETRIES : Nat := 2

/-- RETRY_DELAY in milliseconds (useWorkout.ts line 468). -/
def RETRY_DELAY : Nat := 3000

/-- getTimeout (useWorkout.ts lines 538-542): the size-tiered deadline in
milliseconds. -/
def getTimeout (weeks : Nat) : Nat :=
  if weeks < 5 then 5 * 60 * 1000
  else if weeks < 8 then 15 * 60 * 1000 / 2
  else 30 * 60 * 1000

/-- The retryable-error classification of useWorkout.ts lines 752-756: the
message contains "503", "504" or "Network". -/
def retryableB (m : Str) : Bool :=
  hasSub (str "503") m || hasSub (str "504") m || hasSub (str "Network") m

/-- GenerationStage (useWorkout.ts lines 470-477). -/
inductive Stage : Type where
  | idle
  | preparing
  | generating
  | streaming
  | complete
  | error
  | retrying
  deriving DecidableEq

/-- One callback invocation of the streaming transport, in order of
occurrence: onOpen, onMessage with the delivered frame, onError with the
error message, onClose. -/
inductive CbCall : Type where
  | cbOpen
  | cbMessage (ev : SSEEvent)
  | cbError (m : Str)
  | cbClose
  deriving DecidableEq

/-- One event of the XMLHttpRequest lifetime, supplied by the environment:
readyState HEADERS_RECEIVED with the response status, readyState LOADING
with the cumulative response text so far, readyState DONE with the
cumulative response text at that point, the error event, and the abort
event. xhr.abort() — which the AbortSignal listener calls when the
controller is aborted by the timeout or by cancel() — first resets the
request (responseText becomes empty) and dispatches readystatechange at
readyState DONE, and then dispatches the abort event; a faithful
cancellation trace therefore ends with doneEv [] followed by aborted. -/
inductive XhrEv : Type where
  | headers (status : Nat)
  | load (respText : Str)
  | doneEv (respText : Str)
  | netError
  | aborted
  deriving DecidableEq

/-- The hook-level state mutated by useProgramGeneration: the ordered log of
setStage calls, the error message, the streamingWorkouts list, and the
progress counters. -/
structure OrchState where
  stageLog : List Stage
  errorMsg : Option Str
  streamed : List JsVal
  progressCurrent : Nat
  progressTotal : Nat
  deriving DecidableEq

deriving instance DecidableEq for Except

/-- The state of one transport attempt: the closure variables of
createSSEClientWithPost (buffer, lastIndex), the promise settlement (first
resolve/reject wins), whether the rejection continuation (the catch block of
createSSEClientWithPost) has run, the attempt-level outcome it produced, the
callback log, exceptions thrown inside XHR event handlers (which are lost to
the event loop, not routed to the promise), the attempt-local
processedWorkouts set in first-seen order, and the hook state. -/
structure XhrState where
  buffer : Str
  lastIdx : Nat
  settled : Option (Except Str Unit)
  contDone : Bool
  attemptOut : Option (Except Str Unit)
  calls : List CbCall
  uncaught : List Str
  processed : List (Option JsVal)
  orch : OrchState
  deriving DecidableEq

/-- The default error message of the in-band error branch
(useWorkout.ts line 723). -/
def strGenFailed : Str := str "Generation failed"

/-- The error message thrown by an in-band error payload:
data.message || "Generation failed". Error payloads of this protocol carry
string messages; a missing or falsy message yields the default. -/
def errMsgOf (j : JsVal) : Str :=
  match getFieldJ j (str "message") with
  | some (JsVal.jstr s) => if s = [] then strGenFailed else s
  | _ => strGenFailed

/-- The rejection message for a non-200 response status
(sseClient.ts line 182). -/
def httpErrMsg (status : Nat) : Str :=
  str "HTTP error! status: " ++ Nat.toDigits 10 status

/-- The workout_chunk branch of the orchestrator's onMessage (useWorkout.ts
lines 706-716): when the workout value is truthy and its id has not been
seen this attempt, record the id, append the workout to streamingWorkouts,
and set the progress counter to the size of the processed set. -/
def processWorkoutChunk (st : XhrState) (w : Option JsVal) : XhrState :=
  match w with
  | none => st
  | some wv =>
    if truthy wv then
      let idv := getFieldJ wv (str "id")
      if idv ∈ st.processed then st
      else
        let processed := st.processed ++ [idv]
        { st with
          processed := processed
          orch := { st.orch with
            streamed := st.orch.streamed ++ [wv]
            progressCurrent := processed.length } }
    else st

/-- The orchestrator's onMessage callback (useWorkout.ts lines 692-727),
parameterized by the external JSON.parse builtin: unparseable data is
ignored; status, program_metadata, warning and complete payloads leave the
state unchanged; workout_chunk payloads go through processWorkoutChunk; an
error payload throws an Error carrying the payload message. -/
def handleData (jparse : Str → Option JsVal) (st : XhrState) (ev : SSEEvent) :
    Except Str XhrState :=
  match jparse ev.data with
  | none => Except.ok st
  | some j =>
    let ty := getFieldJ j (str "type")
    if ty = some (JsVal.jstr (str "status")) then Except.ok st
    else if ty = some (JsVal.jstr (str "workout_chunk")) then
      Except.ok (processWorkoutChunk st (getFieldJ j (str "workout")))
    else if ty = some (JsVal.jstr (str "program_metadata")) then Except.ok st
    else if ty = some (JsVal.jstr (str "warning")) then Except.ok st
    else if ty = some (JsVal.jstr (str "error")) then Except.error (errMsgOf j)
    else Except.ok st

/-- The message loop of the drain step (sseClient.ts lines 205-211) with the
orchestrator's onMessage wired in: segments that trim empty or fail to
parse are skipped; a delivered frame is logged as an onMessage invocation
and processed; a throw from onMessage aborts the rest of the loop (and, per
JavaScript event-handler semantics, the rest of the current
onreadystatechange handler), recording the lost exception. Returns the new
state and whether the handler threw. -/
def deliverLoop (jparse : Str → Option JsVal) : XhrState → List Str →
    XhrState × Bool
  | st, [] => (st, false)
  | st, m :: ms =>
    if trimChars m = [] then deliverLoop jparse st ms
    else
      match parseSSEMessage m with
      | none => deliverLoop jparse st ms
      | some ev =>
        let st1 := { st with calls := st.calls ++ [CbCall.cbMessage ev] }
        match handleData jparse st1 ev with
        | Except.ok st2 => deliverLoop jparse st2 ms
        | Except.error msg =>
          ({ st1 with uncaught := st1.uncaught ++ [msg] }, true)

/-- The drain block of the onreadystatechange handler (sseClient.ts lines
188-214): compute the newly appended suffix of the cumulative response text
since lastIndex, advance lastIndex, and when the suffix is nonempty append
it to the buffer, split on the frame delimiter, keep the trailing partial
segment, and run the message loop over the complete segments. -/
def drainText (jparse : Str → Option JsVal) (st : XhrState) (respText : Str) :
    XhrState × Bool :=
  let newData := respText.drop st.lastIdx
  let st1 := { st with lastIdx := respText.length }
  if newData = [] then (st1, false)
  else
    let segs := splitFrames (st1.buffer ++ newData)
    deliverLoop jparse { st1 with buffer := segs.getLastD [] } segs.dropLast

/-- Settle the attempt promise with a resolution; a later settlement of an
already settled promise is a no-op. -/
def settleOk (st : XhrState) : XhrState :=
  if st.settled = none then { st with settled := some (Except.ok ()) } else st

/-- Settle the attempt promise with a rejection; a later settlement of an
already settled promise is a no-op. -/
def settleErr (st : XhrState) (m : Str) : XhrState :=
  if st.settled = none then { st with settled := some (Except.error m) } else st

/-- The raw XHR handlers of createSSEClientWithPost (sseClient.ts lines
178-232) composed with the orchestrator's callbacks: a non-200 status
rejects without onOpen; a 200 status fires onOpen (which sets the streaming
stage); LOADING and DONE drain the new response text; DONE then fires
onClose and resolves, unless the drain threw (in which case those lines of
the handler are skipped); the error event rejects with "Network error"; the
abort event fires onClose and resolves. -/
def stepEvRaw (jparse : Str → Option JsVal) (st : XhrState) : XhrEv → XhrState
  | XhrEv.headers s =>
    if s ≠ 200 then settleErr st (httpErrMsg s)
    else
      { st with
        calls := st.calls ++ [CbCall.cbOpen]
        orch := { st.orch with stageLog := st.orch.stageLog ++ [Stage.streaming] } }
  | XhrEv.load t => (drainText jparse st t).1
  | XhrEv.doneEv t =>
    let d := drainText jparse st t
    if d.2 then d.1
    else settleOk { d.1 with calls := d.1.calls ++ [CbCall.cbClose] }
  | XhrEv.netError => settleErr st (str "Network error")
  | XhrEv.aborted => settleOk { st with calls := st.calls ++ [CbCall.cbClose] }

/-- The microtask continuation of the awaiting code: when the inner promise
has just been rejected, the catch block of createSSEClientWithPost runs
(sseClient.ts lines 236-249): an abort-flavored message routes to onClose
and a clean return, anything else invokes onError — and the orchestrator's
onError rethrows (useWorkout.ts lines 728-731), so the attempt rejects with
that error. Runs at most once. -/
def runCont (st : XhrState) : XhrState :=
  if st.contDone then st
  else
    match st.settled with
    | some (Except.error m) =>
      if hasSub (str "abort") m then
        { st with
          contDone := true
          calls := st.calls ++ [CbCall.cbClose]
          attemptOut := some (Except.ok ()) }
      else
        { st with
          contDone := true
          calls := st.calls ++ [CbCall.cbError m]
          attemptOut := some (Except.error m) }
    | _ => st

/-- Process one XHR event: run the handler, then the settlement
continuation (a microtask, so it runs before any later XHR event). -/
def stepEv (jparse : Str → Option JsVal) (st : XhrState) (e : XhrEv) : XhrState :=
  runCont (stepEvRaw jparse st e)

/-- The initial closure state of one transport attempt: empty buffer, zero
lastIndex, unsettled promise, empty logs, fresh processedWorkouts set. -/
def initXhr (orch : OrchState) : XhrState :=
  { buffer := []
    lastIdx := 0
    settled := none
    contDone := false
    attemptOut := none
    calls := []
    uncaught := []
    processed := []
    orch := orch }

/-- Run one transport attempt (one createSSEClientWithPost call with the
orchestrator's callbacks) over a trace of XHR events. -/
def runAttempt (jparse : Str → Option JsVal) (orch : OrchState)
    (trace : List XhrEv) : XhrState :=
  trace.foldl (stepEv jparse) (initXhr orch)

/-- The settlement of the awaited createSSEClientWithPost promise at the end
of the trace: the continuation's outcome when it ran, a plain resolution
when the inner promise resolved, and none (the await never returns) when
the promise was never settled. -/
def attemptOutcome (st : XhrState) : Option (Except Str Unit) :=
  match st.attemptOut with
  | some o => some o
  | none =>
    match st.settled with
    | some (Except.ok _) => some (Except.ok ())
    | _ => none

/-- GenerationResult (useWorkout.ts lines 511-515). -/
structure GenResult where
  success : Bool
  workoutsCreated : Nat
  error : Option Str
  deriving DecidableEq

/-- The observable outcome of one generateProgram run: the resolved
GenerationResult (none when the promise never settles), the final hook
state, the number of transport attempts started, the retry delays awaited,
and every exception lost inside XHR event handlers. -/
structure RunOutcome where
  result : Option GenResult
  orch : OrchState
  attemptsMade : Nat
  delays : List Nat
  uncaughtAll : List Str
  deriving DecidableEq

/-- The displayed error after a failed run:
lastError?.message || "Generation failed" (useWorkout.ts line 770). -/
def errDisplay : Option Str → Str
  | some m => if m = [] then strGenFailed else m
  | none => strGenFailed

/-- The failure epilogue of generateProgram (useWorkout.ts lines 768-780):
stage error, error message set, and a result with success false and
workoutsCreated 0 regardless of what was accumulated. -/
def genFail (orch : OrchState) (attempts : Nat) (delays : List Nat)
    (unc : List Str) (lastError : Option Str) : RunOutcome :=
  { result := some { success := false, workoutsCreated := 0, error := lastError }
    orch := { orch with
      stageLog := orch.stageLog ++ [Stage.error]
      errorMsg := some (errDisplay lastError) }
    attemptsMade := attempts
    delays := delays
    uncaughtAll := unc }

/-- The hook state after the retry-top block of an iteration (useWorkout.ts
lines 570-574): on a retry, the retrying stage is set and streamingWorkouts
cleared. -/
def retryOrch (orch : OrchState) (rc : Nat) : OrchState :=
  if rc > 0 then
    { orch with
      stageLog := orch.stageLog ++ [Stage.retrying]
      streamed := [] }
  else orch

/-- The awaited delays after the retry-top block: a retried iteration first
awaits the fixed RETRY_DELAY (useWorkout.ts line 573). -/
def retryDelays (delays : List Nat) (rc : Nat) : List Nat :=
  if rc > 0 then delays ++ [RETRY_DELAY] else delays

/-- The hook state right before the transport attempt of an iteration
(useWorkout.ts lines 660-664): generating stage, progress reset to the
expected total. -/
def attemptOrch (orch : OrchState) (rc weeks dpw : Nat) : OrchState :=
  { retryOrch orch rc with
    stageLog := (retryOrch orch rc).stageLog ++ [Stage.generating]
    progressCurrent := 0
    progressTotal := weeks * dpw }

/-- Step 4 of the orchestrator (useWorkout.ts lines 737-765), factored over
the finished attempt state: a resolved attempt completes with success and
the attempt's unique-workout count; a rejection is retried (through the
given continuation) only when its message matches the retryable pattern and
retries remain, and otherwise fails; a never-settling attempt leaves the
promise pending forever. -/
def genDecide (recurse : OrchState → Option Str → RunOutcome) (rc : Nat)
    (st : XhrState) (attempts : Nat) (delays : List Nat) (unc : List Str) :
    RunOutcome :=
  match attemptOutcome st with
  | none =>
    { result := none
      orch := st.orch
      attemptsMade := attempts
      delays := delays
      uncaughtAll := unc }
  | some (Except.ok _) =>
    { result := some { success := true, workoutsCreated := st.processed.length, error := none }
      orch := { st.orch with stageLog := st.orch.stageLog ++ [Stage.complete] }
      attemptsMade := attempts
      delays := delays
      uncaughtAll := unc }
  | some (Except.error m) =>
    if retryableB m then
      if rc + 1 ≤ MAX_RETRIES then recurse st.orch (some m)
      else genFail st.orch attempts delays unc (some m)
    else genFail st.orch attempts delays unc (some m)

/-- The retry loop of generateProgram (useWorkout.ts lines 568-766). The
fuel argument counts the remaining permitted iterations (entry value
MAX_RETRIES + 1, decreasing in lockstep with retryCount, so fuel 0 mirrors
the loop guard retryCount > MAX_RETRIES). Each iteration: on a retry, set
the retrying stage, clear streamingWorkouts and await the fixed delay; fail
fast without a token; otherwise set the generating stage, reset progress,
run the transport attempt on this attempt's trace and decide the outcome
via genDecide, retrying into the next iteration. -/
def genLoop (jparse : Str → Option JsVal) (traces : List (List XhrEv))
    (auth : Bool) (weeks dpw : Nat) :
    Nat → Nat → OrchState → Nat → List Nat → List Str → Option Str → RunOutcome
  | 0, _, orch, attempts, delays, unc, lastError =>
    genFail orch attempts delays unc lastError
  | fuel + 1, rc, orch, attempts, delays, unc, _lastError =>
    if auth = false then
      genFail (retryOrch orch rc) attempts (retryDelays delays rc) unc
        (some (str "No authentication token"))
    else
      genDecide
        (fun orch2 le2 =>
          genLoop jparse traces auth weeks dpw fuel (rc + 1) orch2 (attempts + 1)
            (retryDelays delays rc)
            (unc ++ (runAttempt jparse (attemptOrch orch rc weeks dpw)
                (traces.getD rc [])).uncaught) le2)
        rc (runAttempt jparse (attemptOrch orch rc weeks dpw) (traces.getD rc []))
        (attempts + 1) (retryDelays delays rc)
        (unc ++ (runAttempt jparse (attemptOrch orch rc weeks dpw)
            (traces.getD rc [])).uncaught)

/-- The hook state at the top of generateProgram (useWorkout.ts lines
552-557): error cleared, preparing stage, progress zeroed,
streamingWorkouts cleared. -/
def initOrch : OrchState :=
  { stageLog := [Stage.preparing]
    errorMsg := none
    streamed := []
    progressCurrent := 0
    progressTotal := 0 }

/-- generateProgram (useWorkout.ts lines 547-783), as a function of the
JSON.parse builtin, the availability of an auth token, the schedule size,
and the environment's XHR event trace for each attempt (attempt i consumes
traces[i]). -/
def generateProgram (jparse : Str → Option JsVal) (auth : Bool)
    (weeks dpw : Nat) (traces : List (List XhrEv)) : RunOutcome :=
  genLoop jparse traces auth weeks dpw (MAX_RETRIES + 1) 0 initOrch 0 [] [] none

/-- The synchronous effect of cancel() on the hook state (useWorkout.ts
lines 785-797): abort the controller, clear the timer, stage idle, error
message "Generation cancelled". -/
def cancelUpdate (orch : OrchState) : OrchState :=
  { orch with
    stageLog := orch.stageLog ++ [Stage.idle]
    errorMsg := some (str "Generation cancelled") }

/-- The JSON text of a workout_chunk payload carrying workout w1, as it
appears in the data field of a frame. -/
def w1Json : Str := str "\x7b\"type\":\"workout_chunk\",\"workout\":\x7b\"id\":\"w1\"\x7d\x7d"

/-- The JSON text of a workout_chunk payload carrying workout w2. -/
def w2Json : Str := str "\x7b\"type\":\"workout_chunk\",\"workout\":\x7b\"id\":\"w2\"\x7d\x7d"

/-- The JSON text of an in-band error payload with message "boom". -/
def errJson : Str := str "\x7b\"type\":\"error\",\"message\":\"boom\"\x7d"

/-- The JSON value of the w1 workout object. -/
def w1Workout : JsVal :=
  JsVal.jobj (JsFields.fcons (str "id") (JsVal.jstr (str "w1")) JsFields.fnil)

/-- The JSON value of the w2 workout object. -/
def w2Workout : JsVal :=
  JsVal.jobj (JsFields.fcons (str "id") (JsVal.jstr (str "w2")) JsFields.fnil)

/-- The JSON value of the w1 workout_chunk payload. -/
def w1Val : JsVal :=
  JsVal.jobj (JsFields.fcons (str "type") (JsVal.jstr (str "workout_chunk"))
    (JsFields.fcons (str "workout") w1Workout JsFields.fnil))

/-- The JSON value of the w2 workout_chunk payload. -/
def w2Val : JsVal :=
  JsVal.jobj (JsFields.fcons (str "type") (JsVal.jstr (str "workout_chunk"))
    (JsFields.fcons (str "workout") w2Workout JsFields.fnil))

/-- The JSON value of the error payload with message "boom". -/
def errVal : JsVal :=
  JsVal.jobj (JsFields.fcons (str "type") (JsVal.jstr (str "error"))
    (JsFields.fcons (str "message") (JsVal.jstr (str "boom")) JsFields.fnil))

/-- The JSON.parse builtin modelled at the concrete payload texts used in
the concrete scenarios below: its well-known values at these three inputs. -/
def jparseDemo (s : Str) : Option JsVal :=
  if s = w1Json then some w1Val
  else if s = w2Json then some w2Val
  else if s = errJson then some errVal
  else none

/-- A JSON.parse stand-in for scenarios whose payloads are never parsed. -/
def jparseNone (_ : Str) : Option JsVal := none

/-- The wire text of one frame delivering workout w1. -/
def w1Frame : Str := str "data: " ++ w1Json ++ str "\n\n"

/-- The wire text of one frame delivering workout w2. -/
def w2Frame : Str := str "data: " ++ w2Json ++ str "\n\n"

/-- The wire text of one frame delivering the error payload. -/
def errFrame : Str := str "data: " ++ errJson ++ str "\n\n"

/-- First-seen-order deduplication with an already-seen accumulator, used to
state the duplicate-unit idempotence property. -/
def firstDedupAux {α : Type} [DecidableEq α] (seen : List α) : List α → List α
  | [] => []
  | a :: r => if a ∈ seen then firstDedupAux seen r else a :: firstDedupAux (a :: seen) r

/-- First-seen-order deduplication of a list. -/
def firstDedup {α : Type} [DecidableEq α] (l : List α) : List α := firstDedupAux [] l

/-- The identifier extracted from a workout value, as the orchestrator reads
it (workout.id). -/
def idOfW (w : JsVal) : Option JsVal := getFieldJ w (str "id")

/-- Is a callback invocation an onOpen call? -/
def isOpenB : CbCall → Bool
  | CbCall.cbOpen => true
  | _ => false

/-- Is a callback invocation an onClose call? -/
def isCloseB : CbCall → Bool
  | CbCall.cbClose => true
  | _ => false

/-- Is a callback invocation an onError call? -/
def isErrB : CbCall → Bool
  | CbCall.cbError _ => true
  | _ => false

/-- Is a callback invocation an onMessage call? -/
def isMsgB : CbCall → Bool
  | CbCall.cbMessage _ => true
  | _ => false

/-- Is an XHR event a successful-headers event? -/
def isHeaders200 : XhrEv → Bool
  | XhrEv.headers s => s = 200
  | _ => false

/-- Is an XHR event a benign mid-stream event (successful headers or grown
response text), the events a stream produces before cancellation? -/
def isPreCancelEv : XhrEv → Bool
  | XhrEv.headers s => s = 200
  | XhrEv.load _ => true
  | _ => false

/-- Unfolding lemma: splitting an empty buffer yields the accumulated
segment alone. -/
theorem splitAux_nil (acc : Str) : splitFramesAux acc [] = [acc.reverse] := rfl

/-- Unfolding lemma: a leading double newline closes the accumulated
segment. -/
theorem splitAux_two (acc r : Str) :
    splitFramesAux acc ('\n' :: '\n' :: r) = acc.reverse :: splitFramesAux [] r := rfl

/-- Unfolding lemma: any other leading character is accumulated. -/
theorem splitAux_cons (acc : Str) (c : Char) (r : Str)
    (h : ¬(c = '\n' ∧ startsNL r = true)) :
    splitFramesAux acc (c :: r) = splitFramesAux (c :: acc) r := by
  match c, r with
  | c, [] =>
    rw [splitFramesAux.eq_def]
    split
    · simp_all
    · rename_i heq; simp at heq
    · rename_i heq
      injection heq with e1 e2
      subst e1; subst e2
      rfl
  | c, d :: r' =>
    rw [splitFramesAux.eq_def]
    split
    · simp_all
    · rename_i heq
      injection heq with e1 e2
      injection e2 with e3 e4
      subst e1; subst e3; subst e4
      simp [startsNL] at h
    · rename_i heq
      injection heq with e1 e2
      subst e1; subst e2
      rfl

/-- Bridge from the functional-induction side condition to the guard of
splitAux_cons. -/
theorem notPat_of_induct {c : Char} {rest : Str}
    (h : ∀ (r' : Str), c = '\n' → rest = '\n' :: r' → False) :
    ¬(c = '\n' ∧ startsNL rest = true) := by
  rintro ⟨rfl, hs⟩
  cases rest with
  | nil => simp [startsNL] at hs
  | cons d r' =>
    simp [startsNL] at hs
    exact h r' rfl (by rw [hs])

/-- The frame splitter always yields at least one segment. -/
theorem splitAux_ne_nil (acc s : Str) : splitFramesAux acc s ≠ [] := by
  induction acc, s using splitFramesAux.induct with
  | case1 acc => simp [splitAux_nil]
  | case2 acc rest ih => simp [splitAux_two]
  | case3 acc c rest h ih =>
    rw [splitAux_cons _ _ _ (notPat_of_induct h)]
    exact ih

/-- Unfolding lemma for hasNN on two leading characters. -/
theorem hasNN_two (a b : Char) (r : Str) :
    hasNN (a :: b :: r) = ((a = '\n' && b = '\n') || hasNN (b :: r)) := rfl

/-- Unfolding lemma for endsNL past a leading character. -/
theorem endsNL_two (a b : Char) (r : Str) : endsNL (a :: b :: r) = endsNL (b :: r) := rfl

/-- Unfolding lemma for startsNL on a cons. -/
theorem startsNL_cons (c : Char) (s : Str) : startsNL (c :: s) = decide (c = '\n') := rfl

/-- startsNL of the empty string. -/
theorem startsNL_nil : startsNL [] = false := rfl

/-- Occurrence of the frame delimiter in a concatenation: in either part,
or straddling the boundary. -/
theorem hasNN_append : ∀ (x y : Str),
    hasNN (x ++ y) = (hasNN x || hasNN y || (endsNL x && startsNL y))
  | [], y => by
    have h1 : hasNN ([] : Str) = false := rfl
    have h2 : endsNL ([] : Str) = false := rfl
    simp [h1, h2]
  | [a], y => by
    cases y with
    | nil => simp [hasNN, endsNL, startsNL_nil]
    | cons c r =>
      have h1 : hasNN ([a] ++ c :: r) = ((a = '\n' && c = '\n') || hasNN (c :: r)) := rfl
      have h2 : endsNL [a] = decide (a = '\n') := rfl
      have h4 : hasNN [a] = false := rfl
      rw [h1, h2, h4, startsNL_cons]
      cases hy : hasNN (c :: r) <;> simp [hy, Bool.or_comm]
  | a :: b :: r, y => by
    have ih := hasNN_append (b :: r) y
    simp only [List.cons_append] at ih ⊢
    rw [hasNN_two, hasNN_two, ih, endsNL_two]
    simp [Bool.or_assoc]

/-- A string extended by one character ends with a newline iff that
character is one. -/
theorem endsNL_concat : ∀ (s : Str) (c : Char), endsNL (s ++ [c]) = decide (c = '\n')
  | [], c => by simp [endsNL]
  | [a], c => by simp [endsNL]
  | a :: b :: r, c => by
    have ih := endsNL_concat (b :: r) c
    simpa [endsNL_two] using ih

/-- Unfolding of intercalateNN on a cons with nonempty tail. -/
theorem intercalateNN_cons (a : Str) (l : List Str) (h : l ≠ []) :
    intercalateNN (a :: l) = a ++ '\n' :: '\n' :: intercalateNN l := by
  cases l with
  | nil => simp at h
  | cons b r => rfl

/-- getLastD of a nonempty list does not depend on the default. -/
theorem getLastD_irrel {α : Type} (l : List α) (x y : α) (h : l ≠ []) :
    l.getLastD x = l.getLastD y := by
  cases l with
  | nil => simp at h
  | cons a r => rfl

/-- A nonempty list is its dropLast extended by its last element. -/
theorem dropLast_getLastD {α : Type} : ∀ (l : List α) (d : α), l ≠ [] →
    l.dropLast ++ [l.getLastD d] = l
  | [], d, h => by simp at h
  | [a], d, _ => by simp
  | a :: b :: r, d, _ => by
    have ih := dropLast_getLastD (b :: r) a (by simp)
    simpa using ih

/-- dropLast of a cons with nonempty tail. -/
theorem dropLast_cons_ne {α : Type} (a : α) (l : List α) (h : l ≠ []) :
    (a :: l).dropLast = a :: l.dropLast := by
  cases l with
  | nil => simp at h
  | cons b r => rfl

/-- getLastD of a cons with nonempty tail. -/
theorem getLastD_cons_ne {α : Type} (a : α) (l : List α) (d : α) (h : l ≠ []) :
    (a :: l).getLastD d = l.getLastD d := by
  cases l with
  | nil => simp at h
  | cons b r => rfl

/-- A buffer containing no frame delimiter splits into itself alone. -/
theorem splitAux_noNN : ∀ (acc s : Str), hasNN (acc.reverse ++ s) = false →
    splitFramesAux acc s = [acc.reverse ++ s] := by
  intro acc s
  induction acc, s using splitFramesAux.induct with
  | case1 acc =>
    intro _
    simp [splitAux_nil]
  | case2 acc rest ih =>
    intro h
    exfalso
    rw [hasNN_append, hasNN_two] at h
    simp at h
  | case3 acc c rest h ih =>
    intro hno
    rw [splitAux_cons _ _ _ (notPat_of_induct h)]
    have hno' : hasNN ((c :: acc).reverse ++ rest) = false := by
      simpa [List.append_assoc] using hno
    rw [ih hno']
    simp

/-- Splitting a delimiter-free, non-newline-terminated segment followed by a
delimiter: the segment is closed and splitting restarts after the
delimiter. -/
theorem splitAux_mid : ∀ (s acc t : Str), hasNN (acc.reverse ++ s) = false →
    endsNL (acc.reverse ++ s) = false →
    splitFramesAux acc (s ++ '\n' :: '\n' :: t) = (acc.reverse ++ s) :: splitFrames t := by
  intro s
  induction s with
  | nil =>
    intro acc t h1 h2
    simpa [splitFrames] using splitAux_two acc t
  | cons c r ih =>
    intro acc t h1 h2
    have hc : ¬(c = '\n' ∧ startsNL (r ++ '\n' :: '\n' :: t) = true) := by
      rintro ⟨rfl, hs⟩
      cases r with
      | nil =>
        rw [endsNL_concat] at h2
        simp at h2
      | cons d r' =>
        rw [List.cons_append, startsNL_cons] at hs
        simp at hs
        rw [hasNN_append, hasNN_two, hs] at h1
        simp at h1
    rw [List.cons_append, splitAux_cons _ _ _ hc]
    have h1' : hasNN ((c :: acc).reverse ++ r) = false := by
      simpa [List.append_assoc] using h1
    have h2' : endsNL ((c :: acc).reverse ++ r) = false := by
      simpa [List.append_assoc] using h2
    rw [ih (c :: acc) t h1' h2']
    simp

/-- Soundness of the frame splitter: the segments rejoin to the input, the
non-final segments contain no delimiter and do not end mid-delimiter, and
the final segment contains no delimiter. -/
theorem splitAux_sound : ∀ (acc s : Str), hasNN acc.reverse = false →
    (startsNL s = true → endsNL acc.reverse = false) →
    intercalateNN (splitFramesAux acc s) = acc.reverse ++ s
    ∧ (∀ seg ∈ (splitFramesAux acc s).dropLast, hasNN seg = false ∧ endsNL seg = false)
    ∧ hasNN ((splitFramesAux acc s).getLastD []) = false := by
  intro acc s
  induction acc, s using splitFramesAux.induct with
  | case1 acc =>
    intro h1 _
    refine ⟨by simp [splitAux_nil, intercalateNN], by simp [splitAux_nil], ?_⟩
    simpa [splitAux_nil] using h1
  | case2 acc rest ih =>
    intro h1 h2
    have hend : endsNL acc.reverse = false := h2 (by rw [startsNL_cons]; simp)
    obtain ⟨ihA, ihB, ihC⟩ :=
      ih (by simp [hasNN]) (fun _ => by simp [endsNL])
    have hne := splitAux_ne_nil [] rest
    rw [splitAux_two]
    refine ⟨?_, ?_, ?_⟩
    · rw [intercalateNN_cons _ _ hne, ihA]
      simp
    · intro seg hseg
      rw [dropLast_cons_ne _ _ hne] at hseg
      rcases List.mem_cons.mp hseg with h | h
      · exact h ▸ ⟨h1, hend⟩
      · exact ihB seg h
    · rw [getLastD_cons_ne _ _ _ hne]
      exact ihC
  | case3 acc c rest h ih =>
    intro h1 h2
    have hc := notPat_of_induct h
    rw [splitAux_cons _ _ _ hc]
    have hrev : (c :: acc).reverse = acc.reverse ++ [c] := by simp
    have hA : hasNN ((c :: acc).reverse) = false := by
      rw [hrev, hasNN_append]
      by_cases hcn : c = '\n'
      · have hend := h2 (by rw [startsNL_cons]; simp [hcn])
        have hx : hasNN [c] = false := rfl
        rw [hx, hend, h1]
        simp
      · have hx : hasNN [c] = false := rfl
        have hs : startsNL [c] = false := by rw [startsNL_cons]; simp [hcn]
        rw [hx, hs, h1]
        simp
    have hB : startsNL rest = true → endsNL ((c :: acc).reverse) = false := by
      intro hs
      rw [hrev, endsNL_concat]
      by_cases hcn : c = '\n'
      · exfalso
        cases rest with
        | nil => simp [startsNL_nil] at hs
        | cons d r' =>
          rw [startsNL_cons] at hs
          simp at hs
          exact h r' hcn (by rw [hs])
      · simp [hcn]
    obtain ⟨ihA, ihB2, ihC⟩ := ih hA hB
    refine ⟨?_, ihB2, ihC⟩
    rw [ihA, hrev]
    simp

/-- Appending to the last segment before rejoining. -/
theorem intercalateNN_last_append : ∀ (pre : List Str) (l y : Str),
    intercalateNN (pre ++ [l]) ++ y = intercalateNN (pre ++ [l ++ y])
  | [], l, y => by simp [intercalateNN]
  | a :: pre', l, y => by
    have ih := intercalateNN_last_append pre' l y
    rw [List.cons_append, List.cons_append,
      intercalateNN_cons _ _ (by simp), intercalateNN_cons _ _ (by simp)]
    simp [ih]

/-- Rejoining delimiter-free, cleanly-ended segments and resplitting
recovers the segments. -/
theorem splitFrames_reconstruct : ∀ (pre : List Str) (z : Str),
    (∀ seg ∈ pre, hasNN seg = false ∧ endsNL seg = false) →
    splitFrames (intercalateNN (pre ++ [z])) = pre ++ splitFrames z := by
  intro pre
  induction pre with
  | nil =>
    intro z _
    simp [intercalateNN]
  | cons a pre' ih =>
    intro z hp
    obtain ⟨ha1, ha2⟩ := hp a (by simp)
    rw [List.cons_append, intercalateNN_cons _ _ (by simp)]
    have hmid := splitAux_mid a [] (intercalateNN (pre' ++ [z]))
      (by simpa using ha1) (by simpa using ha2)
    rw [splitFrames, hmid]
    rw [ih z (fun seg hs => hp seg (by simp [hs]))]
    simp

/-- The frame splitter is a homomorphism with respect to resuming from the
trailing partial segment: splitting a concatenation equals the closed
segments of the first part followed by the split of its trailing segment
extended by the second part. -/
theorem splitFrames_append (x y : Str) :
    splitFrames (x ++ y) =
      (splitFrames x).dropLast ++ splitFrames ((splitFrames x).getLastD [] ++ y) := by
  have e : splitFramesAux [] x = splitFrames x := rfl
  obtain ⟨hA, hB, hC⟩ :=
    splitAux_sound [] x (by simp [hasNN]) (fun _ => by simp [endsNL])
  rw [e] at hA hB hC
  have hne : splitFrames x ≠ [] := e ▸ splitAux_ne_nil [] x
  have hx : intercalateNN ((splitFrames x).dropLast ++ [(splitFrames x).getLastD []]) = x := by
    rw [dropLast_getLastD _ _ hne]
    simpa using hA
  have hiy : x ++ y =
      intercalateNN ((splitFrames x).dropLast ++ [(splitFrames x).getLastD [] ++ y]) := by
    rw [← intercalateNN_last_append, hx]
  rw [hiy, splitFrames_reconstruct _ _ (fun seg hs => hB seg hs)]

/-- Delivery distributes over segment-list concatenation. -/
theorem emitAll_append : ∀ (a b : List Str), emitAll (a ++ b) = emitAll a ++ emitAll b
  | [], b => by simp [emitAll]
  | s :: r, b => by
    have ih := emitAll_append r b
    simp [emitAll, ih]

/-- dropLast over an append with nonempty second part. -/
theorem dropLast_append_ne {α : Type} : ∀ (a b : List α), b ≠ [] →
    (a ++ b).dropLast = a ++ b.dropLast
  | [], b, _ => by simp
  | x :: a', b, h => by
    have ih := dropLast_append_ne a' b h
    rw [List.cons_append, dropLast_cons_ne _ _ (by simp [h]), ih]
    rfl

/-- getLastD over an append with nonempty second part. -/
theorem getLastD_append_ne {α : Type} : ∀ (a b : List α) (d : α), b ≠ [] →
    (a ++ b).getLastD d = b.getLastD d
  | [], b, d, _ => by simp
  | x :: a', b, d, h => by
    have ih := getLastD_append_ne a' b d h
    rw [List.cons_append, getLastD_cons_ne _ _ _ (by simp [h]), ih]

/-- Unfolding lemma for feedMany on a cons. -/
theorem feedMany_cons (b c : Str) (cs : List Str) :
    feedMany b (c :: cs) =
      ((feedChunk b c).1 ++ (feedMany (feedChunk b c).2 cs).1,
        (feedMany (feedChunk b c).2 cs).2) := rfl

/-- Unfolding lemma for joinAll on a cons. -/
theorem joinAll_cons (c : Str) (cs : List Str) : joinAll (c :: cs) = c ++ joinAll cs := rfl

/-- The trailing segment kept as the decoder buffer never contains a frame
delimiter. -/
theorem hasNN_buffer (s : Str) : hasNN ((splitFrames s).getLastD []) = false := by
  have e : splitFramesAux [] s = splitFrames s := rfl
  have h := (splitAux_sound [] s (by simp [hasNN]) (fun _ => by simp [endsNL])).2.2
  rwa [e] at h

/-- Feeding a chunk sequence equals feeding its concatenation in one chunk:
the decoder's output and final buffer depend only on the concatenation. -/
theorem feedMany_join : ∀ (cs : List Str) (b : Str), hasNN b = false →
    feedMany b cs = feedChunk b (joinAll cs) := by
  intro cs
  induction cs with
  | nil =>
    intro b hb
    simp [feedMany, joinAll, feedChunk]
  | cons c cs ih =>
    intro b hb
    by_cases hc : c = []
    · subst hc
      have h1 : feedChunk b [] = ([], b) := by simp [feedChunk]
      rw [feedMany_cons, h1, joinAll_cons]
      simp only []
      rw [ih b hb]
      simp
    · have h1 : feedChunk b c =
          (emitAll (splitFrames (b ++ c)).dropLast, (splitFrames (b ++ c)).getLastD []) := by
        simp [feedChunk, hc]
      have hb1 : hasNN ((splitFrames (b ++ c)).getLastD []) = false := hasNN_buffer (b ++ c)
      by_cases hj : joinAll cs = []
      · rw [feedMany_cons, h1, joinAll_cons, hj]
        simp only []
        rw [ih _ hb1, hj]
        have h2 : ∀ (z : Str), feedChunk z [] = ([], z) := fun z => by simp [feedChunk]
        rw [h2]
        simp [h1]
      · rw [feedMany_cons, h1, joinAll_cons]
        simp only []
        rw [ih _ hb1]
        have h3 : feedChunk ((splitFrames (b ++ c)).getLastD []) (joinAll cs) =
            (emitAll (splitFrames ((splitFrames (b ++ c)).getLastD [] ++ joinAll cs)).dropLast,
              (splitFrames ((splitFrames (b ++ c)).getLastD [] ++ joinAll cs)).getLastD []) := by
          simp [feedChunk, hj]
        have hcj : c ++ joinAll cs ≠ [] := by simp [hc]
        have h4 : feedChunk b (c ++ joinAll cs) =
            (emitAll (splitFrames (b ++ (c ++ joinAll cs))).dropLast,
              (splitFrames (b ++ (c ++ joinAll cs))).getLastD []) := by
          simp [feedChunk, hcj]
        rw [h3, h4]
        have h5 : b ++ (c ++ joinAll cs) = (b ++ c) ++ joinAll cs := by
          rw [List.append_assoc]
        rw [h5, splitFrames_append (b ++ c) (joinAll cs)]
        have hBne : splitFrames ((splitFrames (b ++ c)).getLastD [] ++ joinAll cs) ≠ [] :=
          splitAux_ne_nil [] _
        rw [dropLast_append_ne _ _ hBne, getLastD_append_ne _ _ _ hBne, emitAll_append]

/-- C3: For every sequence of text chunks, the stream decoder's output
depends only on the concatenation of the chunks: feeding the whole
multi-frame text in one chunk, or the same text split at arbitrary
boundaries (including splits inside the double-newline delimiter), yields
the identical ordered sequence of delivered parsed frames and the identical
trailing buffer, and the trailing partial segment kept in the buffer
contains no frame delimiter (it is never delivered). -/
theorem c3_stream_decoder_chunk_invariance (chunks : List Str) :
    feedMany [] chunks = feedChunk [] (joinAll chunks)
    ∧ hasNN (feedMany [] chunks).2 = false := by
  have h := feedMany_join chunks [] rfl
  refine ⟨h, ?_⟩
  rw [h]
  by_cases hj : joinAll chunks = []
  · simp [feedChunk, hj, hasNN]
  · have h4 : feedChunk [] (joinAll chunks) =
        (emitAll (splitFrames ([] ++ joinAll chunks)).dropLast,
          (splitFrames ([] ++ joinAll chunks)).getLastD []) := by
      simp [feedChunk, hj]
    rw [h4]
    exact hasNN_buffer _

/-- Unfolding lemma for the workout identifier. -/
theorem idOfW_eq (w : JsVal) : idOfW w = getFieldJ w (str "id") := rfl

/-- firstDedupAux depends on the seen accumulator only through
membership. -/
theorem firstDedupAux_congr {α : Type} [DecidableEq α] :
    ∀ (l : List α) (s1 s2 : List α), (∀ a, a ∈ s1 ↔ a ∈ s2) →
      firstDedupAux s1 l = firstDedupAux s2 l
  | [], _, _, _ => rfl
  | a :: l, s1, s2, h => by
    by_cases hm : a ∈ s1
    · simp [firstDedupAux, hm, (h a).mp hm]
      exact firstDedupAux_congr l s1 s2 h
    · have hm2 : a ∉ s2 := fun hx => hm ((h a).mpr hx)
      simp [firstDedupAux, hm, hm2]
      exact firstDedupAux_congr l (a :: s1) (a :: s2)
        (fun b => by simp [h b])

/-- firstDedupAux yields pairwise-distinct elements avoiding the
accumulator. -/
theorem firstDedupAux_nodup {α : Type} [DecidableEq α] :
    ∀ (l : List α) (seen : List α),
      (firstDedupAux seen l).Nodup ∧ ∀ a ∈ firstDedupAux seen l, a ∉ seen
  | [], seen => by simp [firstDedupAux]
  | a :: l, seen => by
    by_cases hm : a ∈ seen
    · simpa [firstDedupAux, hm] using firstDedupAux_nodup l seen
    · obtain ⟨ih1, ih2⟩ := firstDedupAux_nodup l (a :: seen)
      refine ⟨?_, ?_⟩
      · simp only [firstDedupAux, hm, if_neg]
        refine List.nodup_cons.mpr ⟨?_, ih1⟩
        intro hx
        exact (ih2 a hx) (by simp)
      · intro b hb
        simp only [firstDedupAux, hm, if_neg] at hb
        rcases List.mem_cons.mp hb with h | h
        · exact h ▸ hm
        · intro hbs
          exact (ih2 b h) (by simp [hbs])

/-- The invariant of the workout_chunk fold: the processed set grows by the
first-seen deduplication of the incoming identifiers, the streamed workouts
carry exactly those identifiers in the same order, and the progress counter
tracks the size of the processed set. -/
theorem workoutFold_spec : ∀ (ws : List JsVal) (st : XhrState),
    (∀ w ∈ ws, truthy w = true) →
    st.orch.progressCurrent = st.processed.length →
    ((ws.foldl (fun s w => processWorkoutChunk s (some w)) st).processed
        = st.processed ++ firstDedupAux st.processed (ws.map idOfW))
    ∧ ((ws.foldl (fun s w => processWorkoutChunk s (some w)) st).orch.streamed.map idOfW
        = st.orch.streamed.map idOfW ++ firstDedupAux st.processed (ws.map idOfW))
    ∧ ((ws.foldl (fun s w => processWorkoutChunk s (some w)) st).orch.progressCurrent
        = ((ws.foldl (fun s w => processWorkoutChunk s (some w)) st).processed).length) := by
  intro ws
  induction ws with
  | nil =>
    intro st hw hc
    simp [firstDedupAux, hc]
  | cons w ws ih =>
    intro st hw hc
    have htw : truthy w = true := hw w (by simp)
    have hw' : ∀ v ∈ ws, truthy v = true := fun v hv => hw v (by simp [hv])
    simp only [List.foldl_cons, List.map_cons]
    by_cases hm : getFieldJ w (str "id") ∈ st.processed
    · have hstep : processWorkoutChunk st (some w) = st := by
        simp [processWorkoutChunk, htw, hm]
      rw [hstep]
      have hd : firstDedupAux st.processed (idOfW w :: ws.map idOfW)
          = firstDedupAux st.processed (ws.map idOfW) := by
        simp [firstDedupAux, idOfW_eq, hm]
      rw [hd]
      exact ih st hw' hc
    · have hstep : processWorkoutChunk st (some w) =
          { st with
            processed := st.processed ++ [getFieldJ w (str "id")]
            orch := { st.orch with
              streamed := st.orch.streamed ++ [w]
              progressCurrent := (st.processed ++ [getFieldJ w (str "id")]).length } } := by
        simp [processWorkoutChunk, htw, hm]
      rw [hstep]
      obtain ⟨ih1, ih2, ih3⟩ := ih
        ({ st with
            processed := st.processed ++ [getFieldJ w (str "id")]
            orch := { st.orch with
              streamed := st.orch.streamed ++ [w]
              progressCurrent := (st.processed ++ [getFieldJ w (str "id")]).length } })
        hw' (by rfl)
      have hcongr : firstDedupAux (st.processed ++ [getFieldJ w (str "id")]) (ws.map idOfW)
          = firstDedupAux (getFieldJ w (str "id") :: st.processed) (ws.map idOfW) :=
        firstDedupAux_congr _ _ _ (fun a => by simp [or_comm])
      have hd : firstDedupAux st.processed (idOfW w :: ws.map idOfW)
          = getFieldJ w (str "id") :: firstDedupAux (getFieldJ w (str "id") :: st.processed) (ws.map idOfW) := by
        simp [firstDedupAux, idOfW_eq, hm]
      refine ⟨?_, ?_, ih3⟩
      · rw [ih1, hd, hcongr]
        simp
      · rw [ih2, hd, hcongr]
        simp [idOfW_eq]

/-- C4: Within one generation attempt, for every sequence of delivered
workout_chunk payloads (truthy workout values), each distinct workout
identifier is appended to the partial-results list at most once, in
first-seen order (the streamed identifiers are exactly the first-seen
deduplication of the delivered identifiers, pairwise distinct), duplicate
identifiers are silently ignored, and after processing any such sequence
the progress counter equals the number of distinct identifiers seen. -/
theorem c4_duplicate_unit_idempotence (ws : List JsVal) (orch : OrchState)
    (hw : ∀ w ∈ ws, truthy w = true)
    (hstreamed : orch.streamed = []) (hcur : orch.progressCurrent = 0) :
    ((ws.foldl (fun s w => processWorkoutChunk s (some w)) (initXhr orch)).processed
        = firstDedup (ws.map idOfW))
    ∧ ((ws.foldl (fun s w => processWorkoutChunk s (some w)) (initXhr orch)).orch.streamed.map idOfW
        = firstDedup (ws.map idOfW))
    ∧ ((ws.foldl (fun s w => processWorkoutChunk s (some w)) (initXhr orch)).orch.progressCurrent
        = (firstDedup (ws.map idOfW)).length)
    ∧ (firstDedup (ws.map idOfW)).Nodup := by
  obtain ⟨h1, h2, h3⟩ := workoutFold_spec ws (initXhr orch)
    hw (by simp [initXhr, hcur])
  refine ⟨?_, ?_, ?_, (firstDedupAux_nodup (ws.map idOfW) []).1⟩
  · simpa [initXhr, firstDedup] using h1
  · simpa [initXhr, firstDedup, hstreamed] using h2
  · rw [h3, h1]
    simp [initXhr, firstDedup]

/-- Witness for C4: delivering the same workout payload twice yields one
partial result and a progress count of one. -/
theorem c4_duplicate_unit_idempotence_witness :
    ((∀ w ∈ [w1Workout, w1Workout], truthy w = true)
      ∧ initOrch.streamed = [] ∧ initOrch.progressCurrent = 0)
    ∧ (([w1Workout, w1Workout].foldl (fun s w => processWorkoutChunk s (some w))
          (initXhr initOrch)).processed = firstDedup ([w1Workout, w1Workout].map idOfW))
    ∧ (([w1Workout, w1Workout].foldl (fun s w => processWorkoutChunk s (some w))
          (initXhr initOrch)).orch.streamed.length = 1)
    ∧ (([w1Workout, w1Workout].foldl (fun s w => processWorkoutChunk s (some w))
          (initXhr initOrch)).orch.progressCurrent = 1) :=
  ⟨⟨by decide, by decide, by decide⟩,
    (c4_duplicate_unit_idempotence [w1Workout, w1Workout] initOrch
      (by decide) (by decide) (by decide)).1,
    by decide, by decide⟩

/-- Without any data line, the parser's accumulation loop keeps the data
field empty. -/
theorem parseAux_no_data : ∀ (lines : List Str) (ev idf : Option Str) (rt : Option Int),
    (∀ l ∈ lines, startsWithL (str "data:") l = false) →
    (parseAux lines (ev, [], idf, rt)).2.1 = [] := by
  intro lines
  induction lines with
  | nil => intro ev idf rt _; rfl
  | cons l ls ih =>
    intro ev idf rt h
    have hl : startsWithL (str "data:") l = false := h l (by simp)
    have hls : ∀ x ∈ ls, startsWithL (str "data:") x = false :=
      fun x hx => h x (by simp [hx])
    cases hb1 : startsWithL (str "event:") l with
    | true =>
      simp [parseAux, hb1]
      exact ih _ _ _ hls
    | false =>
      cases hb3 : startsWithL (str "id:") l with
      | true =>
        simp [parseAux, hb1, hl, hb3]
        exact ih _ _ _ hls
      | false =>
        cases hb4 : startsWithL (str "retry:") l with
        | true =>
          cases hr : parseIntJS (trimChars (l.drop 6)) with
          | none =>
            simp [parseAux, hb1, hl, hb3, hb4, hr]
            exact ih _ _ _ hls
          | some n =>
            simp [parseAux, hb1, hl, hb3, hb4, hr]
            exact ih _ _ _ hls
        | false =>
          simp [parseAux, hb1, hl, hb3, hb4]
          exact ih _ _ _ hls

/-- C8: A raw frame segment that accumulates no data (none of its lines is
a data line — for example a frame consisting only of an event: ping line,
or only blank or unrecognized lines) yields no parsed frame, and the
transport's per-segment delivery invokes onMessage zero times for it. -/
theorem c8_no_data_frame_filtered (msg : Str)
    (h : ∀ l ∈ splitNL msg, startsWithL (str "data:") l = false) :
    parseSSEMessage msg = none ∧ deliverSeg msg = [] := by
  have hp : parseSSEMessage msg = none := by
    unfold parseSSEMessage
    have hz := parseAux_no_data (splitNL msg) none none none h
    rcases hq : parseAux (splitNL msg) (none, [], none, none) with ⟨ev, dat, idf, rt⟩
    rw [hq] at hz
    simp at hz
    simp [hz]
  refine ⟨hp, ?_⟩
  simp [deliverSeg, hp]

/-- Witness for C8: the frame "event: ping" has no data line, parses to
nothing, and is never delivered. -/
theorem c8_no_data_frame_filtered_witness :
    (∀ l ∈ splitNL (str "event: ping"), startsWithL (str "data:") l = false)
    ∧ parseSSEMessage (str "event: ping") = none
    ∧ deliverSeg (str "event: ping") = [] :=
  ⟨by decide,
    (c8_no_data_frame_filtered (str "event: ping") (by decide)).1,
    (c8_no_data_frame_filtered (str "event: ping") (by decide)).2⟩

/-- Upper-casing sees through lower-casing (ASCII case tables). -/
theorem upper_lower (c : Char) : asciiUpper (asciiLower c) = asciiUpper c := by
  unfold asciiLower
  by_cases h0 : c = 'A'
  · subst h0; decide
  rw [if_neg h0]
  by_cases h1 : c = 'B'
  · subst h1; decide
  rw [if_neg h1]
  by_cases h2 : c = 'C'
  · subst h2; decide
  rw [if_neg h2]
  by_cases h3 : c = 'D'
  · subst h3; decide
  rw [if_neg h3]
  by_cases h4 : c = 'E'
  · subst h4; decide
  rw [if_neg h4]
  by_cases h5 : c = 'F'
  · subst h5; decide
  rw [if_neg h5]
  by_cases h6 : c = 'G'
  · subst h6; decide
  rw [if_neg h6]
  by_cases h7 : c = 'H'
  · subst h7; decide
  rw [if_neg h7]
  by_cases h8 : c = 'I'
  · subst h8; decide
  rw [if_neg h8]
  by_cases h9 : c = 'J'
  · subst h9; decide
  rw [if_neg h9]
  by_cases h10 : c = 'K'
  · subst h10; decide
  rw [if_neg h10]
  by_cases h11 : c = 'L'
  · subst h11; decide
  rw [if_neg h11]
  by_cases h12 : c = 'M'
  · subst h12; decide
  rw [if_neg h12]
  by_cases h13 : c = 'N'
  · subst h13; decide
  rw [if_neg h13]
  by_cases h14 : c = 'O'
  · subst h14; decide
  rw [if_neg h14]
  by_cases h15 : c = 'P'
  · subst h15; decide
  rw [if_neg h15]
  by_cases h16 : c = 'Q'
  · subst h16; decide
  rw [if_neg h16]
  by_cases h17 : c = 'R'
  · subst h17; decide
  rw [if_neg h17]
  by_cases h18 : c = 'S'
  · subst h18; decide
  rw [if_neg h18]
  by_cases h19 : c = 'T'
  · subst h19; decide
  rw [if_neg h19]
  by_cases h20 : c = 'U'
  · subst h20; decide
  rw [if_neg h20]
  by_cases h21 : c = 'V'
  · subst h21; decide
  rw [if_neg h21]
  by_cases h22 : c = 'W'
  · subst h22; decide
  rw [if_neg h22]
  by_cases h23 : c = 'X'
  · subst h23; decide
  rw [if_neg h23]
  by_cases h24 : c = 'Y'
  · subst h24; decide
  rw [if_neg h24]
  by_cases h25 : c = 'Z'
  · subst h25; decide
  rw [if_neg h25]

/-- Characters with the same lower-case form have the same upper-case
form. -/
theorem lower_eq_upper {a b : Char} (h : asciiLower a = asciiLower b) :
    asciiUpper a = asciiUpper b := by
  rw [← upper_lower a, ← upper_lower b, h]

/-- A name matched exactly by dayNameToNumber is already in capitalized
form. -/
theorem canonical_capFirst (d : Str) (n : Nat) (h : dayNameToNumber d = some n) :
    capFirst d = d := by
  unfold dayNameToNumber at h
  by_cases g0 : d = str "Sunday"
  · subst g0; decide
  rw [if_neg g0] at h
  by_cases g1 : d = str "Monday"
  · subst g1; decide
  rw [if_neg g1] at h
  by_cases g2 : d = str "Tuesday"
  · subst g2; decide
  rw [if_neg g2] at h
  by_cases g3 : d = str "Wednesday"
  · subst g3; decide
  rw [if_neg g3] at h
  by_cases g4 : d = str "Thursday"
  · subst g4; decide
  rw [if_neg g4] at h
  by_cases g5 : d = str "Friday"
  · subst g5; decide
  rw [if_neg g5] at h
  by_cases g6 : d = str "Saturday"
  · subst g6; decide
  rw [if_neg g6] at h
  exact Option.noConfusion h

/-- For a nonempty name, the per-day normalization agrees with looking up
the capitalized form. -/
theorem mapDayName_eq_cap (d : Str) (hd : d ≠ []) :
    mapDayName d = dayNameToNumber (capFirst d) := by
  unfold mapDayName
  rw [if_neg hd]
  cases hq : dayNameToNumber d with
  | none => simp [hq]
  | some n => simp [hq, canonical_capFirst d n hq]

/-- Capitalization depends only on the lower-cased characters. -/
theorem capFirst_congr {s t : Str} (hs : s ≠ []) (ht : t ≠ [])
    (h : s.map asciiLower = t.map asciiLower) : capFirst s = capFirst t := by
  cases s with
  | nil => simp at hs
  | cons a s' =>
    cases t with
    | nil => simp at ht
    | cons b t' =>
      simp only [List.map_cons, List.cons.injEq] at h
      simp [capFirst, lower_eq_upper h.1, h.2]

/-- C9: Weekday names are normalized by exact dayNameToNumber match with a
capitalize-first-letter fallback, making the matching case-insensitive;
names matching neither way are dropped; an input list yielding zero valid
days produces the default schedule [1,3,5]; and the numeric codes are
0=Sunday through 6=Saturday. -/
theorem c9_weekday_normalization :
    (∀ s t : Str, s ≠ [] → t ≠ [] → s.map asciiLower = t.map asciiLower →
      mapDayName s = mapDayName t)
    ∧ (∀ (d : Str) (n : Nat), mapDayName d = some n →
      dayNameToNumber (capFirst d) = some n)
    ∧ (∀ ds : List Str, (∀ d ∈ ds, mapDayName d = none) →
      buildDaysOfWeek ds = [1, 3, 5])
    ∧ (buildDaysOfWeek [] = [1, 3, 5]
      ∧ dayNameToNumber (str "Sunday") = some 0
      ∧ dayNameToNumber (str "Monday") = some 1
      ∧ dayNameToNumber (str "Tuesday") = some 2
      ∧ dayNameToNumber (str "Wednesday") = some 3
      ∧ dayNameToNumber (str "Thursday") = some 4
      ∧ dayNameToNumber (str "Friday") = some 5
      ∧ dayNameToNumber (str "Saturday") = some 6) := by
  refine ⟨?_, ?_, ?_, by decide⟩
  · intro s t hs ht h
    rw [mapDayName_eq_cap s hs, mapDayName_eq_cap t ht, capFirst_congr hs ht h]
  · intro d n h
    have hd : d ≠ [] := by
      rintro rfl
      rw [show mapDayName [] = none from by decide] at h
      exact Option.noConfusion h
    rw [← mapDayName_eq_cap d hd]
    exact h
  · intro ds h
    have hnil : ds.filterMap mapDayName = [] := by
      induction ds with
      | nil => rfl
      | cons d ds ih =>
        rw [List.filterMap_cons, h d (by simp)]
        exact ih (fun x hx => h x (by simp [hx]))
    simp [buildDaysOfWeek, hnil]

/-- Witness for C9: "monday" and "MONDAY" normalize alike (both to Monday),
a valid lower-case name resolves through capitalization, and a fully
invalid list falls back to Monday/Wednesday/Friday. -/
theorem c9_weekday_normalization_witness :
    ((str "monday" ≠ [] ∧ str "MONDAY" ≠ []
        ∧ (str "monday").map asciiLower = (str "MONDAY").map asciiLower)
      ∧ mapDayName (str "monday") = some 1
      ∧ (∀ d ∈ [str "Funday"], mapDayName d = none))
    ∧ (mapDayName (str "monday") = mapDayName (str "MONDAY")
      ∧ dayNameToNumber (capFirst (str "monday")) = some 1
      ∧ buildDaysOfWeek [str "Funday"] = [1, 3, 5]) :=
  ⟨⟨⟨by decide, by decide, by decide⟩, by decide, by decide⟩,
    c9_weekday_normalization.1 (str "monday") (str "MONDAY")
      (by decide) (by decide) (by decide),
    c9_weekday_normalization.2.1 (str "monday") 1 (by decide),
    c9_weekday_normalization.2.2.1 [str "Funday"] (by decide)⟩

/-- The failure epilogue resolves with success false and zero
workoutsCreated. -/
theorem genFail_result (orch : OrchState) (attempts : Nat) (delays : List Nat)
    (unc : List Str) (le : Option Str) :
    (genFail orch attempts delays unc le).result
      = some { success := false, workoutsCreated := 0, error := le } := rfl

/-- Outcome-decision shape: assuming every continuation result is either a
success or reports zero workoutsCreated, so is the decision's. -/
theorem genDecide_shape (recurse : OrchState → Option Str → RunOutcome)
    (rc : Nat) (st : XhrState) (attempts : Nat) (delays : List Nat)
    (unc : List Str) (gr : GenResult)
    (hrec : ∀ o le gr', (recurse o le).result = some gr' →
      gr'.success = true ∨ gr'.workoutsCreated = 0)
    (h : (genDecide recurse rc st attempts delays unc).result = some gr) :
    gr.success = true ∨ gr.workoutsCreated = 0 := by
  unfold genDecide at h
  rcases hk : attemptOutcome st with _ | o
  · simp only [hk] at h
    simp at h
  · rcases o with m | u
    · simp only [hk] at h
      cases hb : retryableB m with
      | false =>
        rw [hb, if_neg (by simp), genFail_result] at h
        right
        injection h with h
        rw [← h]
      | true =>
        rw [hb, if_pos rfl] at h
        by_cases hrc : rc + 1 ≤ MAX_RETRIES
        · rw [if_pos hrc] at h
          exact hrec _ _ _ h
        · rw [if_neg hrc, genFail_result] at h
          right
          injection h with h
          rw [← h]
    · left
      rcases gr with ⟨gs, gw, ge⟩
      simp only [hk] at h
      simp at h
      show gs = true
      obtain ⟨h1, h2⟩ := h
      exact h1

/-- Any resolved generateProgram result either succeeded or reports zero
workoutsCreated. -/
theorem genLoop_result_shape : ∀ (fuel rc : Nat) (jparse : Str → Option JsVal)
    (traces : List (List XhrEv)) (auth : Bool) (weeks dpw : Nat)
    (orch : OrchState) (attempts : Nat) (delays : List Nat) (unc : List Str)
    (le : Option Str) (gr : GenResult),
    (genLoop jparse traces auth weeks dpw fuel rc orch attempts delays unc le).result
      = some gr →
    gr.success = true ∨ gr.workoutsCreated = 0 := by
  intro fuel
  induction fuel with
  | zero =>
    intro rc jparse traces auth weeks dpw orch attempts delays unc le gr h
    rw [show genLoop jparse traces auth weeks dpw 0 rc orch attempts delays unc le
        = genFail orch attempts delays unc le from rfl, genFail_result] at h
    right
    injection h with h
    rw [← h]
  | succ fuel ih =>
    intro rc jparse traces auth weeks dpw orch attempts delays unc le gr h
    unfold genLoop at h
    by_cases ha : auth = false
    · rw [if_pos ha, genFail_result] at h
      right
      injection h with h
      rw [← h]
    · rw [if_neg ha] at h
      exact genDecide_shape _ _ _ _ _ _ _
        (fun o le2 gr' h' => ih _ _ _ _ _ _ _ _ _ _ _ _ h') h

/-- C10: Whenever generateProgram resolves with success false (fatal error
or exhausted retries), the returned workoutsCreated field is 0, regardless
of how many unit-delivery frames were received during the failed attempts;
the accumulated unique-unit count is reported only on success. -/
theorem c10_failure_reports_zero_workouts (jparse : Str → Option JsVal)
    (auth : Bool) (weeks dpw : Nat) (traces : List (List XhrEv))
    (gr : GenResult)
    (h : (generateProgram jparse auth weeks dpw traces).result = some gr)
    (hs : gr.success = false) : gr.workoutsCreated = 0 := by
  rcases genLoop_result_shape (MAX_RETRIES + 1) 0 jparse traces auth weeks dpw
    initOrch 0 [] [] none gr h with h1 | h1
  · rw [hs] at h1
    exact Bool.noConfusion h1
  · exact h1

/-- Witness for C10: three attempts that each stream one workout and then
hit a network error resolve with success false and workoutsCreated 0 even
though a workout was received. -/
theorem c10_failure_reports_zero_workouts_witness :
    ((generateProgram jparseDemo true 4 3
        [[XhrEv.headers 200, XhrEv.load w1Frame, XhrEv.netError],
         [XhrEv.headers 200, XhrEv.load w1Frame, XhrEv.netError],
         [XhrEv.headers 200, XhrEv.load w1Frame, XhrEv.netError]]).result
      = some { success := false, workoutsCreated := 0, error := some (str "Network error") })
    ∧ ({ success := false, workoutsCreated := 0,
          error := some (str "Network error") } : GenResult).success = false
    ∧ ({ success := false, workoutsCreated := 0,
          error := some (str "Network error") } : GenResult).workoutsCreated = 0 :=
  ⟨by decide, by decide,
    c10_failure_reports_zero_workouts jparseDemo true 4 3
      [[XhrEv.headers 200, XhrEv.load w1Frame, XhrEv.netError],
       [XhrEv.headers 200, XhrEv.load w1Frame, XhrEv.netError],
       [XhrEv.headers 200, XhrEv.load w1Frame, XhrEv.netError]]
      { success := false, workoutsCreated := 0, error := some (str "Network error") }
      (by decide) (by decide)⟩

/-- genDecide on a retryable rejection with retries remaining: recurse. -/
theorem genDecide_error_retry (recurse : OrchState → Option Str → RunOutcome)
    (rc : Nat) (st : XhrState) (attempts : Nat) (delays : List Nat)
    (unc : List Str) (m : Str)
    (hk : attemptOutcome st = some (Except.error m))
    (hr : retryableB m = true) (hrc : rc + 1 ≤ MAX_RETRIES) :
    genDecide recurse rc st attempts delays unc = recurse st.orch (some m) := by
  unfold genDecide
  simp only [hk]
  rw [hr, if_pos rfl, if_pos hrc]

/-- genDecide on a retryable rejection with retries exhausted: fail. -/
theorem genDecide_error_stop (recurse : OrchState → Option Str → RunOutcome)
    (rc : Nat) (st : XhrState) (attempts : Nat) (delays : List Nat)
    (unc : List Str) (m : Str)
    (hk : attemptOutcome st = some (Except.error m))
    (hr : retryableB m = true) (hrc : ¬(rc + 1 ≤ MAX_RETRIES)) :
    genDecide recurse rc st attempts delays unc
      = genFail st.orch attempts delays unc (some m) := by
  unfold genDecide
  simp only [hk]
  rw [hr, if_pos rfl, if_neg hrc]

/-- genDecide on a non-retryable rejection: fail immediately. -/
theorem genDecide_error_fatal (recurse : OrchState → Option Str → RunOutcome)
    (rc : Nat) (st : XhrState) (attempts : Nat) (delays : List Nat)
    (unc : List Str) (m : Str)
    (hk : attemptOutcome st = some (Except.error m))
    (hr : retryableB m = false) :
    genDecide recurse rc st attempts delays unc
      = genFail st.orch attempts delays unc (some m) := by
  unfold genDecide
  simp only [hk]
  rw [hr, if_neg (by simp)]

/-- genDecide on a resolved attempt: complete with success. -/
theorem genDecide_ok (recurse : OrchState → Option Str → RunOutcome)
    (rc : Nat) (st : XhrState) (attempts : Nat) (delays : List Nat)
    (unc : List Str)
    (hk : attemptOutcome st = some (Except.ok ())) :
    genDecide recurse rc st attempts delays unc
      = { result := some { success := true, workoutsCreated := st.processed.length, error := none }
          orch := { st.orch with stageLog := st.orch.stageLog ++ [Stage.complete] }
          attemptsMade := attempts
          delays := delays
          uncaughtAll := unc } := by
  unfold genDecide
  simp only [hk]

/-- One loop iteration whose attempt rejects retryably (with retries
remaining, authenticated) continues into the next iteration with the retry
count incremented and the fixed delay recorded when this iteration was
itself a retry. -/
theorem genLoop_step_fail (jparse : Str → Option JsVal) (traces : List (List XhrEv))
    (weeks dpw fuel rc : Nat) (orch : OrchState) (attempts : Nat)
    (delays : List Nat) (unc : List Str) (le : Option Str) (m : Str)
    (h : ∀ o, attemptOutcome (runAttempt jparse o (traces.getD rc [])) = some (Except.error m))
    (hr : retryableB m = true) (hrc : rc + 1 ≤ MAX_RETRIES) :
    genLoop jparse traces true weeks dpw (fuel + 1) rc orch attempts delays unc le
      = genLoop jparse traces true weeks dpw fuel (rc + 1)
          (runAttempt jparse (attemptOrch orch rc weeks dpw) (traces.getD rc [])).orch
          (attempts + 1) (retryDelays delays rc)
          (unc ++ (runAttempt jparse (attemptOrch orch rc weeks dpw)
              (traces.getD rc [])).uncaught)
          (some m) := by
  conv_lhs => unfold genLoop
  rw [if_neg (by simp)]
  rw [genDecide_error_retry _ _ _ _ _ _ _ (h _) hr hrc]

/-- One loop iteration whose attempt rejects retryably with no retries left
(authenticated): the run fails, reporting this iteration's attempt and
delays. -/
theorem genLoop_step_stop (jparse : Str → Option JsVal) (traces : List (List XhrEv))
    (weeks dpw fuel rc : Nat) (orch : OrchState) (attempts : Nat)
    (delays : List Nat) (unc : List Str) (le : Option Str) (m : Str)
    (h : ∀ o, attemptOutcome (runAttempt jparse o (traces.getD rc [])) = some (Except.error m))
    (hr : retryableB m = true) (hrc : ¬(rc + 1 ≤ MAX_RETRIES)) :
    genLoop jparse traces true weeks dpw (fuel + 1) rc orch attempts delays unc le
      = genFail (runAttempt jparse (attemptOrch orch rc weeks dpw) (traces.getD rc [])).orch
          (attempts + 1) (retryDelays delays rc)
          (unc ++ (runAttempt jparse (attemptOrch orch rc weeks dpw)
              (traces.getD rc [])).uncaught)
          (some m) := by
  conv_lhs => unfold genLoop
  rw [if_neg (by simp)]
  rw [genDecide_error_stop _ _ _ _ _ _ _ (h _) hr hrc]

/-- One loop iteration whose attempt resolves (authenticated): the run
completes with success and the attempt's unique-workout count. -/
theorem genLoop_step_ok (jparse : Str → Option JsVal) (traces : List (List XhrEv))
    (weeks dpw fuel rc : Nat) (orch : OrchState) (attempts : Nat)
    (delays : List Nat) (unc : List Str) (le : Option Str)
    (h : ∀ o, attemptOutcome (runAttempt jparse o (traces.getD rc [])) = some (Except.ok ())) :
    genLoop jparse traces true weeks dpw (fuel + 1) rc orch attempts delays unc le
      = { result := some
            { success := true
              workoutsCreated := (runAttempt jparse (attemptOrch orch rc weeks dpw)
                (traces.getD rc [])).processed.length
              error := none }
          orch := { (runAttempt jparse (attemptOrch orch rc weeks dpw)
              (traces.getD rc [])).orch with
            stageLog := (runAttempt jparse (attemptOrch orch rc weeks dpw)
              (traces.getD rc [])).orch.stageLog ++ [Stage.complete] }
          attemptsMade := attempts + 1
          delays := retryDelays delays rc
          uncaughtAll := unc ++ (runAttempt jparse (attemptOrch orch rc weeks dpw)
              (traces.getD rc [])).uncaught } := by
  conv_lhs => unfold genLoop
  rw [if_neg (by simp)]
  rw [genDecide_ok _ _ _ _ _ _ (h _)]

/-- The attempts reported by the failure epilogue. -/
theorem genFail_attempts (orch : OrchState) (attempts : Nat) (delays : List Nat)
    (unc : List Str) (le : Option Str) :
    (genFail orch attempts delays unc le).attemptsMade = attempts := rfl

/-- The delays reported by the failure epilogue. -/
theorem genFail_delays (orch : OrchState) (attempts : Nat) (delays : List Nat)
    (unc : List Str) (le : Option Str) :
    (genFail orch attempts delays unc le).delays = delays := rfl

/-- C2: With a token available, a run whose three attempts all reject with
retryable errors makes exactly 2 retries (3 total transport attempts),
awaits the fixed RETRY_DELAY before each retried attempt, and resolves with
success false carrying the last error; a run whose first attempt rejects
retryably and whose second attempt resolves makes exactly 1 retry (2 total
attempts), awaits one fixed delay, and resolves with success true carrying
the second attempt's unique-workout count. -/
theorem c2_retry_ceiling_and_fixed_delay :
    (∀ (jparse : Str → Option JsVal) (t0 t1 t2 : List XhrEv) (m0 m1 m2 : Str)
        (weeks dpw : Nat),
      (∀ o, attemptOutcome (runAttempt jparse o t0) = some (Except.error m0)) →
      (∀ o, attemptOutcome (runAttempt jparse o t1) = some (Except.error m1)) →
      (∀ o, attemptOutcome (runAttempt jparse o t2) = some (Except.error m2)) →
      retryableB m0 = true → retryableB m1 = true → retryableB m2 = true →
      (generateProgram jparse true weeks dpw [t0, t1, t2]).result
          = some { success := false, workoutsCreated := 0, error := some m2 }
        ∧ (generateProgram jparse true weeks dpw [t0, t1, t2]).attemptsMade = 3
        ∧ (generateProgram jparse true weeks dpw [t0, t1, t2]).delays
          = [RETRY_DELAY, RETRY_DELAY])
    ∧ (∀ (jparse : Str → Option JsVal) (t0 t1 : List XhrEv) (m0 : Str)
        (n weeks dpw : Nat),
      (∀ o, attemptOutcome (runAttempt jparse o t0) = some (Except.error m0)) →
      (∀ o, attemptOutcome (runAttempt jparse o t1) = some (Except.ok ())) →
      (∀ o, (runAttempt jparse o t1).processed.length = n) →
      retryableB m0 = true →
      (generateProgram jparse true weeks dpw [t0, t1]).result
          = some { success := true, workoutsCreated := n, error := none }
        ∧ (generateProgram jparse true weeks dpw [t0, t1]).attemptsMade = 2
        ∧ (generateProgram jparse true weeks dpw [t0, t1]).delays = [RETRY_DELAY]) := by
  constructor
  · intro jparse t0 t1 t2 m0 m1 m2 weeks dpw h0 h1 h2 hr0 hr1 hr2
    have h0' : ∀ o, attemptOutcome (runAttempt jparse o (([t0, t1, t2] : List (List XhrEv)).getD 0 []))
        = some (Except.error m0) := fun o => h0 o
    have h1' : ∀ o, attemptOutcome (runAttempt jparse o (([t0, t1, t2] : List (List XhrEv)).getD 1 []))
        = some (Except.error m1) := fun o => h1 o
    have h2' : ∀ o, attemptOutcome (runAttempt jparse o (([t0, t1, t2] : List (List XhrEv)).getD 2 []))
        = some (Except.error m2) := fun o => h2 o
    have e0 : generateProgram jparse true weeks dpw [t0, t1, t2]
        = genLoop jparse [t0, t1, t2] true weeks dpw (2 + 1) 0 initOrch 0 [] [] none := rfl
    have chain :=
      (genLoop_step_fail jparse [t0, t1, t2] weeks dpw 2 0 initOrch 0 [] [] none m0
        h0' hr0 (by decide)).trans
      ((genLoop_step_fail jparse [t0, t1, t2] weeks dpw 1 1 _ (0 + 1) _ _ (some m0) m1
        h1' hr1 (by decide)).trans
      (genLoop_step_stop jparse [t0, t1, t2] weeks dpw 0 2 _ _ _ _ (some m1) m2
        h2' hr2 (by decide)))
    rw [e0, chain]
    refine ⟨?_, ?_, ?_⟩
    · rw [genFail_result]
    · rw [genFail_attempts]
    · rw [genFail_delays]
      decide
  · intro jparse t0 t1 m0 n weeks dpw h0 h1 hn hr0
    have h0' : ∀ o, attemptOutcome (runAttempt jparse o (([t0, t1] : List (List XhrEv)).getD 0 []))
        = some (Except.error m0) := fun o => h0 o
    have h1' : ∀ o, attemptOutcome (runAttempt jparse o (([t0, t1] : List (List XhrEv)).getD 1 []))
        = some (Except.ok ()) := fun o => h1 o
    have e0 : generateProgram jparse true weeks dpw [t0, t1]
        = genLoop jparse [t0, t1] true weeks dpw (2 + 1) 0 initOrch 0 [] [] none := rfl
    have chain :=
      (genLoop_step_fail jparse [t0, t1] weeks dpw 2 0 initOrch 0 [] [] none m0
        h0' hr0 (by decide)).trans
      (genLoop_step_ok jparse [t0, t1] weeks dpw 1 1 _ (0 + 1) _ _ (some m0) h1')
    rw [e0, chain]
    have hn' : ∀ o, (runAttempt jparse o (([t0, t1] : List (List XhrEv)).getD 1 [])).processed.length
        = n := fun o => hn o
    refine ⟨?_, ?_, ?_⟩
    · rw [hn']
    · rfl
    · show retryDelays (retryDelays [] 0) 1 = [RETRY_DELAY]
      decide

/-- Witness for C2: three network-error attempts yield 3 tries, 2 fixed
delays and failure; a network error followed by a clean empty stream yields
2 tries, 1 fixed delay and success. -/
theorem c2_retry_ceiling_and_fixed_delay_witness :
    ((generateProgram jparseNone true 4 3
          [[XhrEv.netError], [XhrEv.netError], [XhrEv.netError]]).result
        = some { success := false, workoutsCreated := 0, error := some (str "Network error") }
      ∧ (generateProgram jparseNone true 4 3
          [[XhrEv.netError], [XhrEv.netError], [XhrEv.netError]]).attemptsMade = 3
      ∧ (generateProgram jparseNone true 4 3
          [[XhrEv.netError], [XhrEv.netError], [XhrEv.netError]]).delays
          = [RETRY_DELAY, RETRY_DELAY])
    ∧ ((generateProgram jparseNone true 4 3
          [[XhrEv.netError], [XhrEv.headers 200, XhrEv.doneEv []]]).result
        = some { success := true, workoutsCreated := 0, error := none }
      ∧ (generateProgram jparseNone true 4 3
          [[XhrEv.netError], [XhrEv.headers 200, XhrEv.doneEv []]]).attemptsMade = 2
      ∧ (generateProgram jparseNone true 4 3
          [[XhrEv.netError], [XhrEv.headers 200, XhrEv.doneEv []]]).delays = [RETRY_DELAY]) :=
  ⟨c2_retry_ceiling_and_fixed_delay.1 jparseNone [XhrEv.netError] [XhrEv.netError]
      [XhrEv.netError] (str "Network error") (str "Network error") (str "Network error") 4 3
      (fun _ => rfl) (fun _ => rfl) (fun _ => rfl) (by decide) (by decide) (by decide),
    c2_retry_ceiling_and_fixed_delay.2 jparseNone [XhrEv.netError]
      [XhrEv.headers 200, XhrEv.doneEv []] (str "Network error") 0 4 3
      (fun _ => rfl) (fun _ => rfl) (fun _ => rfl) (by decide)⟩

/-- The workout_chunk handler touches only the processed set and the hook
state: callback log, promise state and continuation state are unchanged. -/
theorem processWorkoutChunk_frame (st : XhrState) (w : Option JsVal) :
    (processWorkoutChunk st w).calls = st.calls
    ∧ (processWorkoutChunk st w).settled = st.settled
    ∧ (processWorkoutChunk st w).contDone = st.contDone
    ∧ (processWorkoutChunk st w).attemptOut = st.attemptOut := by
  rcases w with _ | wv
  · exact ⟨rfl, rfl, rfl, rfl⟩
  · unfold processWorkoutChunk
    by_cases ht : truthy wv = true
    · by_cases hm : getFieldJ wv (str "id") ∈ st.processed
      · simp [ht, hm]
      · simp [ht, hm]
    · simp [ht]

/-- A non-throwing onMessage invocation leaves the callback log, promise
state and continuation state unchanged. -/
theorem handleData_frame (jparse : Str → Option JsVal) (st : XhrState)
    (ev : SSEEvent) (st2 : XhrState) (h : handleData jparse st ev = Except.ok st2) :
    st2.calls = st.calls ∧ st2.settled = st.settled ∧ st2.contDone = st.contDone
    ∧ st2.attemptOut = st.attemptOut := by
  unfold handleData at h
  rcases hj : jparse ev.data with _ | j
  · simp only [hj] at h
    injection h with h
    subst h
    exact ⟨rfl, rfl, rfl, rfl⟩
  · simp only [hj] at h
    split at h
    · injection h with h
      subst h
      exact ⟨rfl, rfl, rfl, rfl⟩
    · split at h
      · injection h with h
        subst h
        exact processWorkoutChunk_frame st _
      · split at h
        · injection h with h
          subst h
          exact ⟨rfl, rfl, rfl, rfl⟩
        · split at h
          · injection h with h
            subst h
            exact ⟨rfl, rfl, rfl, rfl⟩
          · split at h
            · exact Except.noConfusion h
            · injection h with h
              subst h
              exact ⟨rfl, rfl, rfl, rfl⟩

/-- The message loop leaves the promise and continuation state unchanged and
appends only onMessage invocations to the callback log. -/
theorem deliverLoop_frame (jparse : Str → Option JsVal) : ∀ (ms : List Str) (st : XhrState),
    (deliverLoop jparse st ms).1.settled = st.settled
    ∧ (deliverLoop jparse st ms).1.contDone = st.contDone
    ∧ (deliverLoop jparse st ms).1.attemptOut = st.attemptOut
    ∧ ∃ extra, (deliverLoop jparse st ms).1.calls = st.calls ++ extra
        ∧ ∀ c ∈ extra, isMsgB c = true := by
  intro ms
  induction ms with
  | nil =>
    intro st
    refine ⟨rfl, rfl, rfl, [], ?_, ?_⟩
    · show st.calls = st.calls ++ []
      rw [List.append_nil]
    · intro c hc
      exact absurd hc (List.not_mem_nil c)
  | cons m ms ih =>
    intro st
    unfold deliverLoop
    by_cases htr : trimChars m = []
    · rw [if_pos htr]
      exact ih st
    · rw [if_neg htr]
      rcases hp : parseSSEMessage m with _ | ev
      · exact ih st
      · rcases hh : handleData jparse { st with calls := st.calls ++ [CbCall.cbMessage ev] } ev
          with m2 | st2
        · refine ⟨?_, ?_, ?_, [CbCall.cbMessage ev], ?_, ?_⟩
          · simp only [hh]
          · simp only [hh]
          · simp only [hh]
          · simp only [hh]
          · intro c hc
            simp at hc
            rw [hc]
            rfl
        · simp only [hh]
          obtain ⟨i1, i2, i3, extra2, i4, i5⟩ := ih st2
          obtain ⟨f1, f2, f3, f4⟩ := handleData_frame jparse _ ev st2 hh
          refine ⟨by rw [i1, f2], by rw [i2, f3], by rw [i3, f4],
            CbCall.cbMessage ev :: extra2, ?_, ?_⟩
          · rw [i4, f1]
            simp
          · intro c hc
            rcases List.mem_cons.mp hc with hcc | hcc
            · rw [hcc]
              rfl
            · exact i5 c hcc

/-- The drain block leaves the promise and continuation state unchanged and
appends only onMessage invocations to the callback log. -/
theorem drainText_frame (jparse : Str → Option JsVal) (st : XhrState) (t : Str) :
    (drainText jparse st t).1.settled = st.settled
    ∧ (drainText jparse st t).1.contDone = st.contDone
    ∧ (drainText jparse st t).1.attemptOut = st.attemptOut
    ∧ ∃ extra, (drainText jparse st t).1.calls = st.calls ++ extra
        ∧ ∀ c ∈ extra, isMsgB c = true := by
  unfold drainText
  by_cases hn : (t.drop st.lastIdx : Str) = []
  · rw [if_pos hn]
    refine ⟨rfl, rfl, rfl, [], ?_, ?_⟩
    · rw [List.append_nil]
    · intro c hc
      exact absurd hc (List.not_mem_nil c)
  · rw [if_neg hn]
    exact deliverLoop_frame jparse _ _

/-- The continuation is the identity once it has already run. -/
theorem runCont_id (st : XhrState) (h : st.contDone = true) : runCont st = st := by
  unfold runCont
  rw [if_pos h]

/-- The continuation is the identity on an unsettled promise. -/
theorem runCont_none (st : XhrState) (h : st.settled = none) : runCont st = st := by
  unfold runCont
  by_cases hc : st.contDone = true
  · rw [if_pos hc]
  · rw [if_neg hc, h]

/-- The continuation is the identity on a resolved promise. -/
theorem runCont_ok (st : XhrState) (u : Unit) (h : st.settled = some (Except.ok u)) :
    runCont st = st := by
  unfold runCont
  by_cases hc : st.contDone = true
  · rw [if_pos hc]
  · rw [if_neg hc, h]

/-- The continuation on a fresh rejection with an abort-flavored message:
onClose fires and the attempt resolves cleanly. -/
theorem runCont_err_close (st : XhrState) (m : Str) (hc : st.contDone = false)
    (hs : st.settled = some (Except.error m)) (hab : hasSub (str "abort") m = true) :
    runCont st = { st with
      contDone := true
      calls := st.calls ++ [CbCall.cbClose]
      attemptOut := some (Except.ok ()) } := by
  unfold runCont
  rw [if_neg (by simp [hc]), hs]
  simp [hab, hs]

/-- The continuation on a fresh rejection with a non-abort message: onError
fires (and the orchestrator's onError rethrows, rejecting the attempt). -/
theorem runCont_err_error (st : XhrState) (m : Str) (hc : st.contDone = false)
    (hs : st.settled = some (Except.error m)) (hab : hasSub (str "abort") m = false) :
    runCont st = { st with
      contDone := true
      calls := st.calls ++ [CbCall.cbError m]
      attemptOut := some (Except.error m) } := by
  unfold runCont
  rw [if_neg (by simp [hc]), hs]
  simp [hab, hs]

/-- Settling the promise with a rejection never touches the callback log. -/
theorem settleErr_calls (st : XhrState) (m : Str) :
    (settleErr st m).calls = st.calls := by
  unfold settleErr
  split
  · rfl
  · rfl

/-- Settling the promise with a resolution never touches the callback log. -/
theorem settleOk_calls (st : XhrState) :
    (settleOk st).calls = st.calls := by
  unfold settleOk
  split
  · rfl
  · rfl

/-- An onMessage invocation is not an onOpen invocation. -/
theorem isMsgB_not_open (c : CbCall) (h : isMsgB c = true) : isOpenB c = false := by
  cases c with
  | cbOpen => exact absurd h (by decide)
  | cbMessage ev => rfl
  | cbError m => exact Bool.noConfusion h
  | cbClose => exact absurd h (by decide)

/-- An onMessage invocation is neither an onClose nor an onError invocation. -/
theorem isMsgB_not_close_err (c : CbCall) (h : isMsgB c = true) :
    isCloseB c = false ∧ isErrB c = false := by
  cases c with
  | cbOpen => exact absurd h (by decide)
  | cbMessage ev => exact ⟨rfl, rfl⟩
  | cbError m => exact Bool.noConfusion h
  | cbClose => exact absurd h (by decide)

/-- The settlement continuation only ever appends onClose or onError
invocations to the callback log, never an onOpen. -/
theorem runCont_extra (st : XhrState) :
    ∃ extra, (runCont st).calls = st.calls ++ extra
      ∧ ∀ c ∈ extra, isOpenB c = false := by
  cases hcd : st.contDone with
  | true =>
    rw [runCont_id st hcd]
    exact ⟨[], by rw [List.append_nil], fun c hc => absurd hc (List.not_mem_nil c)⟩
  | false =>
    rcases hs : st.settled with _ | o
    · rw [runCont_none st hs]
      exact ⟨[], by rw [List.append_nil], fun c hc => absurd hc (List.not_mem_nil c)⟩
    · rcases o with m | u
      · cases hab : hasSub (str "abort") m with
        | true =>
          rw [runCont_err_close st m hcd hs hab]
          refine ⟨[CbCall.cbClose], rfl, ?_⟩
          intro c hc
          simp at hc
          rw [hc]
          rfl
        | false =>
          rw [runCont_err_error st m hcd hs hab]
          refine ⟨[CbCall.cbError m], rfl, ?_⟩
          intro c hc
          simp at hc
          rw [hc]
          rfl
      · rw [runCont_ok st u hs]
        exact ⟨[], by rw [List.append_nil], fun c hc => absurd hc (List.not_mem_nil c)⟩

/-- When the raw handler of an event appends no onOpen invocation, neither
does the full event step (handler plus settlement continuation). -/
theorem stepEv_calls_no_open (jparse : Str → Option JsVal) (st : XhrState)
    (e : XhrEv) (e1 : List CbCall)
    (hr : (stepEvRaw jparse st e).calls = st.calls ++ e1)
    (h1 : ∀ c ∈ e1, isOpenB c = false) :
    ∃ extra, (stepEv jparse st e).calls = st.calls ++ extra
      ∧ List.countP isOpenB extra = 0 := by
  obtain ⟨e2, h2, h2o⟩ := runCont_extra (stepEvRaw jparse st e)
  refine ⟨e1 ++ e2, ?_, ?_⟩
  · show (runCont (stepEvRaw jparse st e)).calls = st.calls ++ (e1 ++ e2)
    rw [h2, hr, List.append_assoc]
  · rw [List.countP_append,
      List.countP_eq_zero.mpr (fun c hc => by simp [h1 c hc]),
      List.countP_eq_zero.mpr (fun c hc => by simp [h2o c hc])]

/-- One event step appends exactly one onOpen invocation when the event is a
successful-headers event and none otherwise. -/
theorem stepEv_open_extra (jparse : Str → Option JsVal) (st : XhrState) (e : XhrEv) :
    ∃ extra, (stepEv jparse st e).calls = st.calls ++ extra
      ∧ List.countP isOpenB extra = (if isHeaders200 e then 1 else 0) := by
  cases e with
  | headers s =>
    by_cases hs : s = 200
    · subst hs
      obtain ⟨e2, h2, h2o⟩ := runCont_extra (stepEvRaw jparse st (XhrEv.headers 200))
      have hr : (stepEvRaw jparse st (XhrEv.headers 200)).calls
          = st.calls ++ [CbCall.cbOpen] := by
        simp [stepEvRaw]
      refine ⟨CbCall.cbOpen :: e2, ?_, ?_⟩
      · show (runCont (stepEvRaw jparse st (XhrEv.headers 200))).calls
            = st.calls ++ (CbCall.cbOpen :: e2)
        rw [h2, hr, List.append_assoc]
        rfl
      · rw [List.countP_cons,
          List.countP_eq_zero.mpr (fun c hc => by simp [h2o c hc])]
        simp [isHeaders200, isOpenB]
    · obtain ⟨extra, hc, hz⟩ := stepEv_calls_no_open jparse st (XhrEv.headers s) []
        (by rw [List.append_nil]
            show (stepEvRaw jparse st (XhrEv.headers s)).calls = st.calls
            simp only [stepEvRaw]
            rw [if_pos hs, settleErr_calls])
        (fun c hc => absurd hc (List.not_mem_nil c))
      refine ⟨extra, hc, ?_⟩
      rw [hz, if_neg (by simp [isHeaders200, hs])]
  | load t =>
    obtain ⟨d1, d2, d3, e1, hd, hm⟩ := drainText_frame jparse st t
    obtain ⟨extra, hc, hz⟩ := stepEv_calls_no_open jparse st (XhrEv.load t) e1
      (by show (drainText jparse st t).1.calls = st.calls ++ e1
          exact hd)
      (fun c hc => isMsgB_not_open c (hm c hc))
    exact ⟨extra, hc, by rw [hz]; rfl⟩
  | doneEv t =>
    obtain ⟨d1, d2, d3, e1, hd, hm⟩ := drainText_frame jparse st t
    cases hthrew : (drainText jparse st t).2 with
    | true =>
      obtain ⟨extra, hc, hz⟩ := stepEv_calls_no_open jparse st (XhrEv.doneEv t) e1
        (by have hr : stepEvRaw jparse st (XhrEv.doneEv t) = (drainText jparse st t).1 := by
              simp [stepEvRaw, hthrew]
            rw [hr]
            exact hd)
        (fun c hc => isMsgB_not_open c (hm c hc))
      exact ⟨extra, hc, by rw [hz]; rfl⟩
    | false =>
      obtain ⟨extra, hc, hz⟩ := stepEv_calls_no_open jparse st (XhrEv.doneEv t)
        (e1 ++ [CbCall.cbClose])
        (by have hr : stepEvRaw jparse st (XhrEv.doneEv t)
                = settleOk { (drainText jparse st t).1 with
                    calls := (drainText jparse st t).1.calls ++ [CbCall.cbClose] } := by
              simp [stepEvRaw, hthrew]
            rw [hr, settleOk_calls]
            show (drainText jparse st t).1.calls ++ [CbCall.cbClose] = _
            rw [hd, List.append_assoc])
        (by intro c hc
            rcases List.mem_append.mp hc with h1 | h1
            · exact isMsgB_not_open c (hm c h1)
            · simp at h1
              rw [h1]
              rfl)
      exact ⟨extra, hc, by rw [hz]; rfl⟩
  | netError =>
    obtain ⟨extra, hc, hz⟩ := stepEv_calls_no_open jparse st XhrEv.netError []
      (by rw [List.append_nil]
          show (settleErr st (str "Network error")).calls = st.calls
          exact settleErr_calls st _)
      (fun c hc => absurd hc (List.not_mem_nil c))
    exact ⟨extra, hc, by rw [hz]; rfl⟩
  | aborted =>
    obtain ⟨extra, hc, hz⟩ := stepEv_calls_no_open jparse st XhrEv.aborted [CbCall.cbClose]
      (by show (settleOk { st with calls := st.calls ++ [CbCall.cbClose] }).calls = _
          rw [settleOk_calls])
      (by intro c hc
          simp at hc
          rw [hc]
          rfl)
    exact ⟨extra, hc, by rw [hz]; rfl⟩

/-- Across a whole attempt trace, the number of onOpen invocations in the
callback log equals the number of successful-headers events, beyond those
already logged in the starting state. -/
theorem fold_open_count (jparse : Str → Option JsVal) :
    ∀ (trace : List XhrEv) (st : XhrState),
    List.countP isOpenB (trace.foldl (stepEv jparse) st).calls
      = List.countP isOpenB st.calls + List.countP isHeaders200 trace := by
  intro trace
  induction trace with
  | nil =>
    intro st
    simp
  | cons e tr ih =>
    intro st
    rw [List.foldl_cons, ih, List.countP_cons]
    obtain ⟨extra, hc, hcount⟩ := stepEv_open_extra jparse st e
    rw [hc, List.countP_append, hcount]
    omega

set_option maxRecDepth 10000 in
/-- No status message of the non-200 rejection contains the substring
"abort" (statuses up to 999): the catch block never misroutes an HTTP
status rejection to onClose. -/
theorem habort_bounded :
    ∀ s : Nat, s < 1000 → hasSub (str "abort") (httpErrMsg s) = false := by
  decide

/-- The headers event with status exactly 200 fires onOpen, records the
streaming stage, and leaves the promise pending. -/
theorem stepEv_headers_ok (jparse : Str → Option JsVal) (orch : OrchState) :
    stepEv jparse (initXhr orch) (XhrEv.headers 200)
      = { initXhr orch with
          calls := [CbCall.cbOpen]
          orch := { orch with stageLog := orch.stageLog ++ [Stage.streaming] } } := by
  rfl

/-- The headers event with any status other than 200 fires onError with the
status message (no onOpen) and rejects the attempt with that message. -/
theorem stepEv_headers_bad (jparse : Str → Option JsVal) (orch : OrchState)
    (s : Nat) (hs : s ≠ 200)
    (hab : hasSub (str "abort") (httpErrMsg s) = false) :
    stepEv jparse (initXhr orch) (XhrEv.headers s)
      = { initXhr orch with
          settled := some (Except.error (httpErrMsg s))
          contDone := true
          calls := [CbCall.cbError (httpErrMsg s)]
          attemptOut := some (Except.error (httpErrMsg s)) } := by
  show runCont (stepEvRaw jparse (initXhr orch) (XhrEv.headers s)) = _
  have hr : stepEvRaw jparse (initXhr orch) (XhrEv.headers s)
      = { initXhr orch with settled := some (Except.error (httpErrMsg s)) } := by
    simp only [stepEvRaw]
    rw [if_pos hs]
    unfold settleErr
    rw [if_pos (show (initXhr orch).settled = none from rfl)]
  rw [hr, runCont_err_error _ (httpErrMsg s) rfl rfl hab]
  rfl

/-- A benign mid-stream event (successful headers or grown response text)
keeps the promise pending, the continuation unrun and the attempt
unsettled, and appends neither onClose nor onError to the callback log. -/
theorem benign_step (jparse : Str → Option JsVal) (st : XhrState) (e : XhrEv)
    (he : isPreCancelEv e = true) (h1 : st.settled = none)
    (h2 : st.contDone = false) (h3 : st.attemptOut = none) :
    (stepEv jparse st e).settled = none
    ∧ (stepEv jparse st e).contDone = false
    ∧ (stepEv jparse st e).attemptOut = none
    ∧ ∃ extra, (stepEv jparse st e).calls = st.calls ++ extra
        ∧ ∀ c ∈ extra, isCloseB c = false ∧ isErrB c = false := by
  cases e with
  | headers s =>
    have hs : s = 200 := by simpa [isPreCancelEv] using he
    subst hs
    have hr : stepEvRaw jparse st (XhrEv.headers 200)
        = { st with
            calls := st.calls ++ [CbCall.cbOpen]
            orch := { st.orch with stageLog := st.orch.stageLog ++ [Stage.streaming] } } := by
      simp [stepEvRaw]
    have hrc : stepEv jparse st (XhrEv.headers 200)
        = { st with
            calls := st.calls ++ [CbCall.cbOpen]
            orch := { st.orch with stageLog := st.orch.stageLog ++ [Stage.streaming] } } := by
      show runCont (stepEvRaw jparse st (XhrEv.headers 200)) = _
      rw [hr]
      exact runCont_none _ h1
    rw [hrc]
    refine ⟨h1, h2, h3, [CbCall.cbOpen], rfl, ?_⟩
    intro c hc
    simp at hc
    rw [hc]
    exact ⟨rfl, rfl⟩
  | load t =>
    obtain ⟨d1, d2, d3, e1, hd, hm⟩ := drainText_frame jparse st t
    have hrc : stepEv jparse st (XhrEv.load t) = (drainText jparse st t).1 := by
      show runCont (stepEvRaw jparse st (XhrEv.load t)) = _
      exact runCont_none _ (by rw [show stepEvRaw jparse st (XhrEv.load t)
          = (drainText jparse st t).1 from rfl, d1]; exact h1)
    rw [hrc]
    exact ⟨by rw [d1]; exact h1, by rw [d2]; exact h2, by rw [d3]; exact h3,
      e1, hd, fun c hc => isMsgB_not_close_err c (hm c hc)⟩
  | doneEv t => exact absurd he (by simp [isPreCancelEv])
  | netError => exact absurd he (by simp [isPreCancelEv])
  | aborted => exact absurd he (by simp [isPreCancelEv])

/-- Across any prefix of benign mid-stream events, the promise stays
pending, the continuation unrun, the attempt unsettled, and the callback
log gains neither onClose nor onError. -/
theorem benign_fold (jparse : Str → Option JsVal) :
    ∀ (pre : List XhrEv) (st : XhrState),
    (∀ e ∈ pre, isPreCancelEv e = true) →
    st.settled = none → st.contDone = false → st.attemptOut = none →
    (pre.foldl (stepEv jparse) st).settled = none
    ∧ (pre.foldl (stepEv jparse) st).contDone = false
    ∧ (pre.foldl (stepEv jparse) st).attemptOut = none
    ∧ ∃ extra, (pre.foldl (stepEv jparse) st).calls = st.calls ++ extra
        ∧ ∀ c ∈ extra, isCloseB c = false ∧ isErrB c = false := by
  intro pre
  induction pre with
  | nil =>
    intro st hpre h1 h2 h3
    refine ⟨h1, h2, h3, [], by show st.calls = st.calls ++ []; rw [List.append_nil], ?_⟩
    intro c hc
    exact absurd hc (List.not_mem_nil c)
  | cons e tr ih =>
    intro st hpre h1 h2 h3
    obtain ⟨s1, s2, s3, e1, hc1, hp1⟩ :=
      benign_step jparse st e (hpre e (List.mem_cons_self e tr)) h1 h2 h3
    obtain ⟨f1, f2, f3, e2, hc2, hp2⟩ :=
      ih (stepEv jparse st e) (fun x hx => hpre x (List.mem_cons_of_mem e hx)) s1 s2 s3
    rw [List.foldl_cons]
    refine ⟨f1, f2, f3, e1 ++ e2, ?_, ?_⟩
    · rw [hc2, hc1, List.append_assoc]
    · intro c hc
      rcases List.mem_append.mp hc with h | h
      · exact hp1 c h
      · exact hp2 c h

/-- C1: Contrary to the claim, a timeout-triggered abort of an in-flight
attempt is not classified as a retryable failure. On the trace where the
scheduled abort fires after one workout has streamed, the onabort handler
fires onClose and resolves the attempt promise, so generateProgram makes no
retry (no retrying stage, no delay, a single attempt) and resolves the run
as success with the partial workout count — the timed-out attempt resolves
the promise as success. -/
theorem c1_timeout_abort_resolves_success :
    (generateProgram jparseDemo true 4 3
        [[XhrEv.headers 200, XhrEv.load w1Frame, XhrEv.aborted]]).result
      = some { success := true, workoutsCreated := 1, error := none }
    ∧ (generateProgram jparseDemo true 4 3
        [[XhrEv.headers 200, XhrEv.load w1Frame, XhrEv.aborted]]).attemptsMade = 1
    ∧ (generateProgram jparseDemo true 4 3
        [[XhrEv.headers 200, XhrEv.load w1Frame, XhrEv.aborted]]).delays = []
    ∧ Stage.retrying ∉ (generateProgram jparseDemo true 4 3
        [[XhrEv.headers 200, XhrEv.load w1Frame, XhrEv.aborted]]).orch.stageLog
    ∧ (generateProgram jparseDemo true 4 3
        [[XhrEv.headers 200, XhrEv.load w1Frame,
          XhrEv.aborted]]).orch.stageLog.getLast? = some Stage.complete := by
  decide

/-- C6: Contrary to the claim, an in-band error payload does not fail the
attempt. On the trace delivering a frame whose data parses to an object of
type error with message "boom", the orchestrator's onMessage throw is lost
inside the XHR onreadystatechange handler (it never reaches the promise),
the DONE stage still fires onClose and resolves, and generateProgram
resolves with success true, zero workouts, no error stage — the thrown
message "boom" surfaces only as an uncaught handler exception. -/
theorem c6_inband_error_lost_in_handler :
    jparseDemo errJson = some errVal
    ∧ getFieldJ errVal (str "type") = some (JsVal.jstr (str "error"))
    ∧ getFieldJ errVal (str "message") = some (JsVal.jstr (str "boom"))
    ∧ (generateProgram jparseDemo true 4 3
        [[XhrEv.headers 200, XhrEv.load errFrame, XhrEv.doneEv errFrame]]).result
      = some { success := true, workoutsCreated := 0, error := none }
    ∧ (generateProgram jparseDemo true 4 3
        [[XhrEv.headers 200, XhrEv.load errFrame, XhrEv.doneEv errFrame]]).uncaughtAll
      = [str "boom"]
    ∧ Stage.error ∉ (generateProgram jparseDemo true 4 3
        [[XhrEv.headers 200, XhrEv.load errFrame, XhrEv.doneEv errFrame]]).orch.stageLog
    ∧ (generateProgram jparseDemo true 4 3
        [[XhrEv.headers 200, XhrEv.load errFrame,
          XhrEv.doneEv errFrame]]).orch.stageLog.getLast? = some Stage.complete := by
  decide

/-- C7 counterexample: a 2xx status other than 200 does not fire onOpen. On
status 201 the transport's status check (status !== 200) rejects: onError
fires with the HTTP status message, onOpen never fires, and (since the
handlers stay attached) the DONE event still fires onClose afterwards. -/
theorem c7_status_201_fires_error_not_open :
    (runAttempt jparseNone initOrch [XhrEv.headers 201, XhrEv.doneEv []]).calls
      = [CbCall.cbError (httpErrMsg 201), CbCall.cbClose]
    ∧ CbCall.cbOpen ∉ (runAttempt jparseNone initOrch
        [XhrEv.headers 201, XhrEv.doneEv []]).calls
    ∧ attemptOutcome (runAttempt jparseNone initOrch [XhrEv.headers 201, XhrEv.doneEv []])
      = some (Except.error (httpErrMsg 201))
    ∧ 200 ≤ 201 ∧ 201 < 300 := by
  decide

/-- C7 (amended): onOpen fires exactly once per headers event with status
exactly 200 (not per 2xx status), and never otherwise; any other status —
including other 2xx statuses — fires onError with the HTTP status message
and rejects the attempt; and because the handlers are not detached after
rejection, the DONE event afterwards still fires onClose. -/
theorem c7_open_iff_status_exactly_200 (jparse : Str → Option JsVal)
    (orch : OrchState) (s : Nat) (hs : s < 1000) :
    (s = 200 → (stepEv jparse (initXhr orch) (XhrEv.headers s)).calls = [CbCall.cbOpen])
    ∧ (s ≠ 200 →
        (stepEv jparse (initXhr orch) (XhrEv.headers s)).calls
          = [CbCall.cbError (httpErrMsg s)]
        ∧ attemptOutcome (stepEv jparse (initXhr orch) (XhrEv.headers s))
          = some (Except.error (httpErrMsg s))
        ∧ (runAttempt jparse orch [XhrEv.headers s, XhrEv.doneEv []]).calls
          = [CbCall.cbError (httpErrMsg s), CbCall.cbClose])
    ∧ (∀ trace, List.countP isOpenB (runAttempt jparse orch trace).calls
        = List.countP isHeaders200 trace) := by
  refine ⟨?_, ?_, ?_⟩
  · intro h200
    subst h200
    rw [stepEv_headers_ok]
  · intro hns
    have hbad := stepEv_headers_bad jparse orch s hns (habort_bounded s hs)
    refine ⟨by rw [hbad], by rw [hbad]; rfl, ?_⟩
    have hrun : runAttempt jparse orch [XhrEv.headers s, XhrEv.doneEv []]
        = stepEv jparse (stepEv jparse (initXhr orch) (XhrEv.headers s))
            (XhrEv.doneEv []) := rfl
    rw [hrun, hbad]
    simp [stepEv, stepEvRaw, drainText, settleOk, runCont]
  · intro trace
    have hfold := fold_open_count jparse trace (initXhr orch)
    rw [show runAttempt jparse orch trace
        = trace.foldl (stepEv jparse) (initXhr orch) from rfl, hfold,
      show List.countP isOpenB (initXhr orch).calls = 0 from rfl, Nat.zero_add]

/-- C7 witness: the amended status-check property evaluated at status 503
(the gateway status used by the retry policy). -/
theorem c7_open_iff_status_exactly_200_witness :
    503 < 1000
    ∧ ((503 = 200 →
        (stepEv jparseNone (initXhr initOrch) (XhrEv.headers 503)).calls
          = [CbCall.cbOpen])
      ∧ (503 ≠ 200 →
          (stepEv jparseNone (initXhr initOrch) (XhrEv.headers 503)).calls
            = [CbCall.cbError (httpErrMsg 503)]
          ∧ attemptOutcome (stepEv jparseNone (initXhr initOrch) (XhrEv.headers 503))
            = some (Except.error (httpErrMsg 503))
          ∧ (runAttempt jparseNone initOrch [XhrEv.headers 503, XhrEv.doneEv []]).calls
            = [CbCall.cbError (httpErrMsg 503), CbCall.cbClose])
      ∧ (∀ trace, List.countP isOpenB (runAttempt jparseNone initOrch trace).calls
          = List.countP isHeaders200 trace)) :=
  ⟨by decide, c7_open_iff_status_exactly_200 jparseNone initOrch 503 (by decide)⟩

/-- The DONE readystatechange that xhr.abort() dispatches after resetting
the request (empty response text): no new data drains, so the handler's
DONE branch fires onClose and resolves the still-pending promise. -/
theorem stepEv_done_empty_clean (jparse : Str → Option JsVal) (st : XhrState)
    (h1 : st.settled = none) :
    stepEv jparse st (XhrEv.doneEv [])
      = { st with
          lastIdx := 0
          settled := some (Except.ok ())
          calls := st.calls ++ [CbCall.cbClose] } := by
  show runCont (stepEvRaw jparse st (XhrEv.doneEv [])) = _
  have hr : stepEvRaw jparse st (XhrEv.doneEv [])
      = { st with
          lastIdx := 0
          settled := some (Except.ok ())
          calls := st.calls ++ [CbCall.cbClose] } := by
    simp [stepEvRaw, drainText, settleOk, h1]
  rw [hr]
  exact runCont_ok _ () rfl

/-- The abort event on an already resolved promise: onClose fires again,
but the settlement is a no-op. -/
theorem stepEv_aborted_settled (jparse : Str → Option JsVal) (st : XhrState)
    (u : Unit) (h1 : st.settled = some (Except.ok u)) :
    stepEv jparse st XhrEv.aborted
      = { st with calls := st.calls ++ [CbCall.cbClose] } := by
  show runCont (settleOk { st with calls := st.calls ++ [CbCall.cbClose] }) = _
  have hs : settleOk { st with calls := st.calls ++ [CbCall.cbClose] }
      = { st with calls := st.calls ++ [CbCall.cbClose] } := by
    unfold settleOk
    rw [if_neg (by simp [h1])]
  rw [hs]
  exact runCont_ok _ u h1

/-- An attempt whose trace is any benign mid-stream prefix followed by a
faithful cancellation (the reset DONE readystatechange, then the abort
event): the promise resolves cleanly, onClose fires exactly twice — once
from each handler — as the final two callbacks, and onError never fires,
for any starting hook state. -/
theorem cancel_attempt_facts (jparse : Str → Option JsVal) (pre : List XhrEv)
    (hpre : ∀ e ∈ pre, isPreCancelEv e = true) (o : OrchState) :
    attemptOutcome (runAttempt jparse o (pre ++ [XhrEv.doneEv [], XhrEv.aborted]))
      = some (Except.ok ())
    ∧ List.countP isCloseB (runAttempt jparse o
        (pre ++ [XhrEv.doneEv [], XhrEv.aborted])).calls = 2
    ∧ List.countP isErrB (runAttempt jparse o
        (pre ++ [XhrEv.doneEv [], XhrEv.aborted])).calls = 0
    ∧ ∃ cs, (runAttempt jparse o (pre ++ [XhrEv.doneEv [], XhrEv.aborted])).calls
        = cs ++ [CbCall.cbClose, CbCall.cbClose]
      ∧ ∀ c ∈ cs, isCloseB c = false ∧ isErrB c = false := by
  obtain ⟨hsetl, hcont, hout, extra, hcalls, hprop⟩ :=
    benign_fold jparse pre (initXhr o) hpre rfl rfl rfl
  have hsplit : runAttempt jparse o (pre ++ [XhrEv.doneEv [], XhrEv.aborted])
      = stepEv jparse (stepEv jparse (pre.foldl (stepEv jparse) (initXhr o))
          (XhrEv.doneEv [])) XhrEv.aborted := by
    unfold runAttempt
    rw [List.foldl_append]
    rfl
  rw [hsplit, stepEv_done_empty_clean jparse _ hsetl,
    stepEv_aborted_settled jparse _ () rfl]
  have hzc : List.countP isCloseB extra = 0 :=
    List.countP_eq_zero.mpr (fun c hc => by simp [(hprop c hc).1])
  have hze : List.countP isErrB extra = 0 :=
    List.countP_eq_zero.mpr (fun c hc => by simp [(hprop c hc).2])
  refine ⟨?_, ?_, ?_, ?_⟩
  · unfold attemptOutcome
    simp only [hout]
  · show List.countP isCloseB
        (((pre.foldl (stepEv jparse) (initXhr o)).calls ++ [CbCall.cbClose])
          ++ [CbCall.cbClose]) = 2
    rw [hcalls]
    simp only [List.countP_append]
    rw [hzc]
    rfl
  · show List.countP isErrB
        (((pre.foldl (stepEv jparse) (initXhr o)).calls ++ [CbCall.cbClose])
          ++ [CbCall.cbClose]) = 0
    rw [hcalls]
    simp only [List.countP_append]
    rw [hze]
    rfl
  · refine ⟨extra, ?_, hprop⟩
    show ((pre.foldl (stepEv jparse) (initXhr o)).calls ++ [CbCall.cbClose])
        ++ [CbCall.cbClose] = extra ++ [CbCall.cbClose, CbCall.cbClose]
    rw [hcalls, show (initXhr o).calls = [] from rfl]
    simp

/-- C5 counterexample: cancelling mid-stream neither fires onClose exactly
once nor settles the start promise with a cancellation outcome. On the
faithful cancellation trace — the stream opens, delivers one workout, then
xhr.abort() dispatches the reset DONE readystatechange followed by the
abort event — onClose fires twice (once from the DONE branch, once from
onabort), the attempt promise resolves cleanly, and generateProgram
resolves with a success result carrying the partial workout count. -/
theorem c5_cancel_fires_close_twice_and_resolves_success :
    List.countP isCloseB (runAttempt jparseDemo initOrch
        [XhrEv.headers 200, XhrEv.load w2Frame, XhrEv.doneEv [], XhrEv.aborted]).calls
      = 2
    ∧ List.countP isErrB (runAttempt jparseDemo initOrch
        [XhrEv.headers 200, XhrEv.load w2Frame, XhrEv.doneEv [], XhrEv.aborted]).calls
      = 0
    ∧ attemptOutcome (runAttempt jparseDemo initOrch
        [XhrEv.headers 200, XhrEv.load w2Frame, XhrEv.doneEv [], XhrEv.aborted])
      = some (Except.ok ())
    ∧ (generateProgram jparseDemo true 4 3
        [[XhrEv.headers 200, XhrEv.load w2Frame, XhrEv.doneEv [], XhrEv.aborted]]).result
      = some { success := true, workoutsCreated := 1, error := none } := by
  decide

/-- C5 (amended): invoking cancel() mid-stream aborts the transport, which
dispatches the reset DONE readystatechange and then the abort event; each
fires onClose, so onClose fires exactly twice (as the final two callbacks)
and onError never fires — and no onMessage fires after the cancellation,
since the reset empties the response text. The start promise then resolves
cleanly, so generateProgram resolves with a success result carrying the
partial workout count — the cancellation itself is surfaced only by
cancel()'s synchronous hook update (stage idle, error message "Generation
cancelled"), never by the promise. -/
theorem c5_cancellation_double_close_no_error (jparse : Str → Option JsVal)
    (weeks dpw : Nat) (orch : OrchState) (pre : List XhrEv)
    (hpre : ∀ e ∈ pre, isPreCancelEv e = true) :
    (∃ cs, (runAttempt jparse orch (pre ++ [XhrEv.doneEv [], XhrEv.aborted])).calls
        = cs ++ [CbCall.cbClose, CbCall.cbClose]
      ∧ ∀ c ∈ cs, isCloseB c = false ∧ isErrB c = false)
    ∧ List.countP isCloseB (runAttempt jparse orch
        (pre ++ [XhrEv.doneEv [], XhrEv.aborted])).calls = 2
    ∧ List.countP isErrB (runAttempt jparse orch
        (pre ++ [XhrEv.doneEv [], XhrEv.aborted])).calls = 0
    ∧ attemptOutcome (runAttempt jparse orch (pre ++ [XhrEv.doneEv [], XhrEv.aborted]))
        = some (Except.ok ())
    ∧ (∃ n, (generateProgram jparse true weeks dpw
        [pre ++ [XhrEv.doneEv [], XhrEv.aborted]]).result
        = some { success := true, workoutsCreated := n, error := none })
    ∧ (cancelUpdate orch).errorMsg = some (str "Generation cancelled")
    ∧ (cancelUpdate orch).stageLog = orch.stageLog ++ [Stage.idle] := by
  obtain ⟨ha1, ha2, ha3, ha4⟩ := cancel_attempt_facts jparse pre hpre orch
  refine ⟨ha4, ha2, ha3, ha1, ?_, rfl, rfl⟩
  refine ⟨(runAttempt jparse (attemptOrch initOrch 0 weeks dpw)
      (([pre ++ [XhrEv.doneEv [], XhrEv.aborted]] : List (List XhrEv)).getD 0 [])).processed.length,
    ?_⟩
  have hgen : generateProgram jparse true weeks dpw
        [pre ++ [XhrEv.doneEv [], XhrEv.aborted]]
      = genLoop jparse [pre ++ [XhrEv.doneEv [], XhrEv.aborted]] true weeks dpw
          (2 + 1) 0 initOrch 0 [] [] none := rfl
  rw [hgen, genLoop_step_ok jparse [pre ++ [XhrEv.doneEv [], XhrEv.aborted]] weeks dpw
      2 0 initOrch 0 [] [] none (fun o => (cancel_attempt_facts jparse pre hpre o).1)]

/-- C5 witness: the amended cancellation property evaluated on a concrete
mid-stream trace (open, one workout, then the reset DONE readystatechange
and the abort event). -/
theorem c5_cancellation_double_close_no_error_witness :
    (∀ e ∈ ([XhrEv.headers 200, XhrEv.load w2Frame] : List XhrEv), isPreCancelEv e = true)
    ∧ ((∃ cs, (runAttempt jparseDemo initOrch
          ([XhrEv.headers 200, XhrEv.load w2Frame]
            ++ [XhrEv.doneEv [], XhrEv.aborted])).calls
          = cs ++ [CbCall.cbClose, CbCall.cbClose]
        ∧ ∀ c ∈ cs, isCloseB c = false ∧ isErrB c = false)
      ∧ List.countP isCloseB (runAttempt jparseDemo initOrch
          ([XhrEv.headers 200, XhrEv.load w2Frame]
            ++ [XhrEv.doneEv [], XhrEv.aborted])).calls = 2
      ∧ List.countP isErrB (runAttempt jparseDemo initOrch
          ([XhrEv.headers 200, XhrEv.load w2Frame]
            ++ [XhrEv.doneEv [], XhrEv.aborted])).calls = 0
      ∧ attemptOutcome (runAttempt jparseDemo initOrch
          ([XhrEv.headers 200, XhrEv.load w2Frame]
            ++ [XhrEv.doneEv [], XhrEv.aborted]))
          = some (Except.ok ())
      ∧ (∃ n, (generateProgram jparseDemo true 4 3
          [[XhrEv.headers 200, XhrEv.load w2Frame]
            ++ [XhrEv.doneEv [], XhrEv.aborted]]).result
          = some { success := true, workoutsCreated := n, error := none })
      ∧ (cancelUpdate initOrch).errorMsg = some (str "Generation cancelled")
      ∧ (cancelUpdate initOrch).stageLog = initOrch.stageLog ++ [Stage.idle]) :=
  ⟨by decide, c5_cancellation_double_close_no_error jparseDemo 4 3 initOrch
      [XhrEv.headers 200, XhrEv.load w2Frame] (by decide)⟩
